import Mathlib

/-!
Verification of the SFTP wire-protocol codec in
`Godeps/_workspace/src/github.com/pkg/sftp/packet.go`.

Byte buffers are modelled as `List Nat` (Go `[]byte`; every byte the code
produces is reduced modulo 256 exactly where the source converts to `byte`).
Go strings are byte strings and are likewise modelled as `List Nat`.
Fallible decoding returns `Except PacketError`, with one constructor per
distinct Go error value produced by the decode paths in the file.
-/

set_option autoImplicit false

namespace Sftp

abbrev Bytes := List Nat

/-- Distinct error values returned by the decode paths of packet.go:
`shortPacketError = fmt.Errorf("packet too short")` and the anonymous
`fmt.Errorf("truncated packet")` in `sshFxpDataPacket.UnmarshalBinary`. -/
inductive PacketError where
  | shortPacket
  | truncatedPacket
deriving DecidableEq, Repr

/-- Decidable equality of decode results, used to evaluate the codec on
concrete buffers. -/
instance exceptDecEq {ε α : Type} [DecidableEq ε] [DecidableEq α] :
    DecidableEq (Except ε α) := fun x y =>
  match x, y with
  | .error a, .error b => decidable_of_iff (a = b) (by simp)
  | .error _, .ok _ => isFalse (by simp)
  | .ok _, .error _ => isFalse (by simp)
  | .ok a, .ok b => decidable_of_iff (a = b) (by simp)

/-- `marshalUint32`: appends `byte(v>>24), byte(v>>16), byte(v>>8), byte(v)`. -/
def marshalUint32 (b : Bytes) (v : Nat) : Bytes :=
  b ++ [v / 2 ^ 24 % 256, v / 2 ^ 16 % 256, v / 2 ^ 8 % 256, v % 256]

/-- `marshalUint64`: `marshalUint32(marshalUint32(b, uint32(v>>32)), uint32(v))`. -/
def marshalUint64 (b : Bytes) (v : Nat) : Bytes :=
  marshalUint32 (marshalUint32 b (v / 2 ^ 32 % 2 ^ 32)) (v % 2 ^ 32)

/-- `marshalString`: `append(marshalUint32(b, uint32(len(v))), v...)`
(the Go `int` length is truncated to `uint32`). -/
def marshalString (b : Bytes) (v : Bytes) : Bytes :=
  marshalUint32 b (v.length % 2 ^ 32) ++ v

/-- `unmarshalUint32` (unchecked): reads
`uint32(b[3]) | uint32(b[2])<<8 | uint32(b[1])<<16 | uint32(b[0])<<24` and
returns the rest.  Callers guard `len(b) >= 4`; the default branch is the
unreachable short-buffer case (Go would panic there). -/
def unmarshalUint32 : Bytes → Nat × Bytes
  | b0 :: b1 :: b2 :: b3 :: rest =>
      (b3 + b2 * 2 ^ 8 + b1 * 2 ^ 16 + b0 * 2 ^ 24, rest)
  | b => (0, b.drop 4)

/-- `unmarshalUint32Safe`: fails with `shortPacketError` when `len(b) < 4`. -/
def unmarshalUint32Safe (b : Bytes) : Except PacketError (Nat × Bytes) :=
  if b.length < 4 then .error .shortPacket
  else .ok (unmarshalUint32 b)

/-- `unmarshalUint64` (unchecked): two `unmarshalUint32` reads, high word first. -/
def unmarshalUint64 (b : Bytes) : Nat × Bytes :=
  let hb := unmarshalUint32 b
  let lb := unmarshalUint32 hb.2
  (hb.1 * 2 ^ 32 + lb.1, lb.2)

/-- `unmarshalUint64Safe`: fails with `shortPacketError` when `len(b) < 8`. -/
def unmarshalUint64Safe (b : Bytes) : Except PacketError (Nat × Bytes) :=
  if b.length < 8 then .error .shortPacket
  else .ok (unmarshalUint64 b)

/-- `unmarshalStringSafe`: reads a `uint32` length `n` via
`unmarshalUint32Safe`, then fails with `shortPacketError` when
`int64(n) > int64(len(b))`, else returns `b[:n]` and `b[n:]`. -/
def unmarshalStringSafe (b : Bytes) : Except PacketError (Bytes × Bytes) :=
  match unmarshalUint32Safe b with
  | .error e => .error e
  | .ok (n, b) =>
    if n > b.length then .error .shortPacket
    else .ok (b.take n, b.drop n)

/-! ### The type-tag registry

Modelled from the spec: the `ssh_FXP_*` numeric constants are declared in the
vendored sftp package outside packet.go, which is not part of the sources;
the spec requires that type tag values match the fixed numeric protocol
registry exactly, so the values below are the standard SFTP
(draft-ietf-secsh-filexfer) registry values.  Which constant each marshaller
references is taken from packet.go itself. -/

def ssh_FXP_INIT : Nat := 1
def ssh_FXP_VERSION : Nat := 2
def ssh_FXP_OPEN : Nat := 3
def ssh_FXP_CLOSE : Nat := 4
def ssh_FXP_READ : Nat := 5
def ssh_FXP_WRITE : Nat := 6
def ssh_FXP_LSTAT : Nat := 7
def ssh_FXP_FSTAT : Nat := 8
def ssh_FXP_SETSTAT : Nat := 9
def ssh_FXP_FSETSTAT : Nat := 10
def ssh_FXP_OPENDIR : Nat := 11
def ssh_FXP_READDIR : Nat := 12
def ssh_FXP_REMOVE : Nat := 13
def ssh_FXP_MKDIR : Nat := 14
def ssh_FXP_RMDIR : Nat := 15
def ssh_FXP_REALPATH : Nat := 16
def ssh_FXP_STAT : Nat := 17
def ssh_FXP_RENAME : Nat := 18
def ssh_FXP_READLINK : Nat := 19
def ssh_FXP_SYMLINK : Nat := 20
def ssh_FXP_STATUS : Nat := 101
def ssh_FXP_HANDLE : Nat := 102
def ssh_FXP_DATA : Nat := 103
def ssh_FXP_NAME : Nat := 104
def ssh_FXP_ATTRS : Nat := 105
def ssh_FXP_EXTENDED : Nat := 200

/-! ### Framing layer -/

/-- `sendPacket` (package-level), applied to the payload already produced by
`MarshalBinary`: writes a 4-byte big-endian header holding
`uint32(len(bb))`, then the payload itself.  The returned list is the
byte sequence appearing on the output stream, header first. -/
def sendPacket (payload : Bytes) : Bytes :=
  marshalUint32 [] (payload.length % 2 ^ 32) ++ payload

/-- Result of `recvPacket`. `ioError` is any `io.ReadFull` failure (the
stream ends before the requested bytes); `outOfRange` is the runtime panic
raised by evaluating `b[0]` on a zero-length payload buffer. -/
inductive RecvResult where
  | ioError
  | outOfRange
  | ok (tag : Nat) (body : Bytes)
deriving DecidableEq, Repr

/-- `recvPacket`: reads a 4-byte length `l`, then `l` payload bytes, and
returns `b[0]` and `b[1:]`.  The argument is the readable byte stream. -/
def recvPacket (stream : Bytes) : RecvResult :=
  if stream.length < 4 then .ioError
  else
    let l := (unmarshalUint32 (stream.take 4)).1
    let rest := stream.drop 4
    if rest.length < l then .ioError
    else
      match rest.take l with
      | [] => .outOfRange
      | t :: body => .ok t body

/-! ### Extension pairs -/

structure ExtensionPair where
  Name : Bytes
  Data : Bytes
deriving DecidableEq, Repr

/-- `unmarshalExtensionPair`: two checked strings, name then data. -/
def unmarshalExtensionPair (b : Bytes) : Except PacketError (ExtensionPair × Bytes) :=
  match unmarshalStringSafe b with
  | .error e => .error e
  | .ok (name, b) =>
    match unmarshalStringSafe b with
    | .error e => .error e
    | .ok (data, b) => .ok (⟨name, data⟩, b)

/-- The extension loop of `sshFxInitPacket.UnmarshalBinary`
(`for len(b) > 0`), with an explicit fuel argument.  Each successful
iteration consumes at least eight bytes, so any `fuel >= b.length` is
enough and the zero-fuel branch is unreachable from `parseExtensions`. -/
def parseExtensionsAux : Nat → Bytes → Except PacketError (List ExtensionPair)
  | _, [] => .ok []
  | 0, _ :: _ => .error .shortPacket
  | fuel + 1, b0 :: b1 =>
    match unmarshalExtensionPair (b0 :: b1) with
    | .error e => .error e
    | .ok (ep, rest) =>
      match parseExtensionsAux fuel rest with
      | .error e => .error e
      | .ok eps => .ok (ep :: eps)

def parseExtensions (b : Bytes) : Except PacketError (List ExtensionPair) :=
  parseExtensionsAux b.length b

/-! ### Packet catalog: structures, MarshalBinary, UnmarshalBinary.

Each `MarshalBinary` is the byte sequence the Go method returns (those
methods never return a non-nil error); each `precomputedLen` is the value
of the local `l` the method computes before allocating its buffer (`l` is
only the capacity passed to `make`, so it does not bound the result).
Each `UnmarshalBinary` is the same checked-decode chain as the source,
stopping at the first error. -/

structure sshFxInitPacket where
  Version : Nat
  Extensions : List ExtensionPair
deriving DecidableEq, Repr

def sshFxInitPacket.precomputedLen (p : sshFxInitPacket) : Nat :=
  p.Extensions.foldl (fun l e => l + (4 + e.Name.length + 4 + e.Data.length)) (1 + 4)

def sshFxInitPacket.MarshalBinary (p : sshFxInitPacket) : Bytes :=
  p.Extensions.foldl (fun b e => marshalString (marshalString b e.Name) e.Data)
    (marshalUint32 [ssh_FXP_INIT] p.Version)

def sshFxInitPacket.UnmarshalBinary (b : Bytes) : Except PacketError sshFxInitPacket :=
  match unmarshalUint32Safe b with
  | .error e => .error e
  | .ok (v, b) =>
    match parseExtensions b with
    | .error e => .error e
    | .ok eps => .ok ⟨v, eps⟩

/-- The Go `Extensions` field is a slice of an anonymous two-string struct
with the same shape as `ExtensionPair`. -/
structure sshFxVersionPacket where
  Version : Nat
  Extensions : List ExtensionPair
deriving DecidableEq, Repr

def sshFxVersionPacket.precomputedLen (p : sshFxVersionPacket) : Nat :=
  p.Extensions.foldl (fun l e => l + (4 + e.Name.length + 4 + e.Data.length)) (1 + 4)

def sshFxVersionPacket.MarshalBinary (p : sshFxVersionPacket) : Bytes :=
  p.Extensions.foldl (fun b e => marshalString (marshalString b e.Name) e.Data)
    (marshalUint32 [ssh_FXP_VERSION] p.Version)

/-- `marshalIdString`: tag byte, uint32 id, one string. -/
def marshalIdString (packetType : Nat) (id : Nat) (str : Bytes) : Bytes :=
  marshalString (marshalUint32 [packetType] id) str

def marshalIdStringLen (str : Bytes) : Nat := 1 + 4 + (4 + str.length)

/-- `unmarshalIdString`: uint32 id then one checked string. -/
def unmarshalIdString (b : Bytes) : Except PacketError (Nat × Bytes) :=
  match unmarshalUint32Safe b with
  | .error e => .error e
  | .ok (id, b) =>
    match unmarshalStringSafe b with
    | .error e => .error e
    | .ok (s, _) => .ok (id, s)

structure sshFxpReaddirPacket where
  Id : Nat
  Handle : Bytes
deriving DecidableEq, Repr

def sshFxpReaddirPacket.MarshalBinary (p : sshFxpReaddirPacket) : Bytes :=
  marshalIdString ssh_FXP_READDIR p.Id p.Handle

def sshFxpReaddirPacket.UnmarshalBinary (b : Bytes) : Except PacketError sshFxpReaddirPacket :=
  (unmarshalIdString b).map fun r => ⟨r.1, r.2⟩

structure sshFxpOpendirPacket where
  Id : Nat
  Path : Bytes
deriving DecidableEq, Repr

def sshFxpOpendirPacket.MarshalBinary (p : sshFxpOpendirPacket) : Bytes :=
  marshalIdString ssh_FXP_OPENDIR p.Id p.Path

def sshFxpOpendirPacket.UnmarshalBinary (b : Bytes) : Except PacketError sshFxpOpendirPacket :=
  (unmarshalIdString b).map fun r => ⟨r.1, r.2⟩

structure sshFxpLstatPacket where
  Id : Nat
  Path : Bytes
deriving DecidableEq, Repr

def sshFxpLstatPacket.MarshalBinary (p : sshFxpLstatPacket) : Bytes :=
  marshalIdString ssh_FXP_LSTAT p.Id p.Path

def sshFxpLstatPacket.UnmarshalBinary (b : Bytes) : Except PacketError sshFxpLstatPacket :=
  (unmarshalIdString b).map fun r => ⟨r.1, r.2⟩

structure sshFxpStatPacket where
  Id : Nat
  Path : Bytes
deriving DecidableEq, Repr

/-- The source marshals the STAT request with tag `ssh_FXP_LSTAT`
(packet.go line 319), not `ssh_FXP_STAT`. -/
def sshFxpStatPacket.MarshalBinary (p : sshFxpStatPacket) : Bytes :=
  marshalIdString ssh_FXP_LSTAT p.Id p.Path

def sshFxpStatPacket.UnmarshalBinary (b : Bytes) : Except PacketError sshFxpStatPacket :=
  (unmarshalIdString b).map fun r => ⟨r.1, r.2⟩

structure sshFxpFstatPacket where
  Id : Nat
  Handle : Bytes
deriving DecidableEq, Repr

def sshFxpFstatPacket.MarshalBinary (p : sshFxpFstatPacket) : Bytes :=
  marshalIdString ssh_FXP_FSTAT p.Id p.Handle

def sshFxpFstatPacket.UnmarshalBinary (b : Bytes) : Except PacketError sshFxpFstatPacket :=
  (unmarshalIdString b).map fun r => ⟨r.1, r.2⟩

structure sshFxpClosePacket where
  Id : Nat
  Handle : Bytes
deriving DecidableEq, Repr

def sshFxpClosePacket.MarshalBinary (p : sshFxpClosePacket) : Bytes :=
  marshalIdString ssh_FXP_CLOSE p.Id p.Handle

def sshFxpClosePacket.UnmarshalBinary (b : Bytes) : Except PacketError sshFxpClosePacket :=
  (unmarshalIdString b).map fun r => ⟨r.1, r.2⟩

structure sshFxpRemovePacket where
  Id : Nat
  Filename : Bytes
deriving DecidableEq, Repr

def sshFxpRemovePacket.MarshalBinary (p : sshFxpRemovePacket) : Bytes :=
  marshalIdString ssh_FXP_REMOVE p.Id p.Filename

def sshFxpRemovePacket.UnmarshalBinary (b : Bytes) : Except PacketError sshFxpRemovePacket :=
  (unmarshalIdString b).map fun r => ⟨r.1, r.2⟩

structure sshFxpRmdirPacket where
  Id : Nat
  Path : Bytes
deriving DecidableEq, Repr

def sshFxpRmdirPacket.MarshalBinary (p : sshFxpRmdirPacket) : Bytes :=
  marshalIdString ssh_FXP_RMDIR p.Id p.Path

def sshFxpRmdirPacket.UnmarshalBinary (b : Bytes) : Except PacketError sshFxpRmdirPacket :=
  (unmarshalIdString b).map fun r => ⟨r.1, r.2⟩

structure sshFxpSymlinkPacket where
  Id : Nat
  Targetpath : Bytes
  Linkpath : Bytes
deriving DecidableEq, Repr

def sshFxpSymlinkPacket.precomputedLen (p : sshFxpSymlinkPacket) : Nat :=
  1 + 4 + (4 + p.Targetpath.length) + (4 + p.Linkpath.length)

def sshFxpSymlinkPacket.MarshalBinary (p : sshFxpSymlinkPacket) : Bytes :=
  marshalString (marshalString (marshalUint32 [ssh_FXP_SYMLINK] p.Id) p.Targetpath) p.Linkpath

def sshFxpSymlinkPacket.UnmarshalBinary (b : Bytes) : Except PacketError sshFxpSymlinkPacket :=
  match unmarshalUint32Safe b with
  | .error e => .error e
  | .ok (id, b) =>
    match unmarshalStringSafe b with
    | .error e => .error e
    | .ok (tp, b) =>
      match unmarshalStringSafe b with
      | .error e => .error e
      | .ok (lp, _) => .ok ⟨id, tp, lp⟩

structure sshFxpReadlinkPacket where
  Id : Nat
  Path : Bytes
deriving DecidableEq, Repr

def sshFxpReadlinkPacket.MarshalBinary (p : sshFxpReadlinkPacket) : Bytes :=
  marshalIdString ssh_FXP_READLINK p.Id p.Path

def sshFxpReadlinkPacket.UnmarshalBinary (b : Bytes) : Except PacketError sshFxpReadlinkPacket :=
  (unmarshalIdString b).map fun r => ⟨r.1, r.2⟩

structure sshFxpRealpathPacket where
  Id : Nat
  Path : Bytes
deriving DecidableEq, Repr

/-- The source marshals the REALPATH request with tag `ssh_FXP_READLINK`
(packet.go line 442), not `ssh_FXP_REALPATH`. -/
def sshFxpRealpathPacket.MarshalBinary (p : sshFxpRealpathPacket) : Bytes :=
  marshalIdString ssh_FXP_READLINK p.Id p.Path

def sshFxpRealpathPacket.UnmarshalBinary (b : Bytes) : Except PacketError sshFxpRealpathPacket :=
  (unmarshalIdString b).map fun r => ⟨r.1, r.2⟩

structure sshFxpOpenPacket where
  Id : Nat
  Path : Bytes
  Pflags : Nat
  Flags : Nat
deriving DecidableEq, Repr

def sshFxpOpenPacket.precomputedLen (p : sshFxpOpenPacket) : Nat :=
  1 + 4 + (4 + p.Path.length) + (4 + 4)

def sshFxpOpenPacket.MarshalBinary (p : sshFxpOpenPacket) : Bytes :=
  marshalUint32 (marshalUint32 (marshalString (marshalUint32 [ssh_FXP_OPEN] p.Id) p.Path) p.Pflags) p.Flags

def sshFxpOpenPacket.UnmarshalBinary (b : Bytes) : Except PacketError sshFxpOpenPacket :=
  match unmarshalUint32Safe b with
  | .error e => .error e
  | .ok (id, b) =>
    match unmarshalStringSafe b with
    | .error e => .error e
    | .ok (path, b) =>
      match unmarshalUint32Safe b with
      | .error e => .error e
      | .ok (pflags, b) =>
        match unmarshalUint32Safe b with
        | .error e => .error e
        | .ok (flags, _) => .ok ⟨id, path, pflags, flags⟩

structure sshFxpReadPacket where
  Id : Nat
  Handle : Bytes
  Offset : Nat
  Len : Nat
deriving DecidableEq, Repr

def sshFxpReadPacket.precomputedLen (p : sshFxpReadPacket) : Nat :=
  1 + 4 + (4 + p.Handle.length) + (8 + 4)

def sshFxpReadPacket.MarshalBinary (p : sshFxpReadPacket) : Bytes :=
  marshalUint32 (marshalUint64 (marshalString (marshalUint32 [ssh_FXP_READ] p.Id) p.Handle) p.Offset) p.Len

def sshFxpReadPacket.UnmarshalBinary (b : Bytes) : Except PacketError sshFxpReadPacket :=
  match unmarshalUint32Safe b with
  | .error e => .error e
  | .ok (id, b) =>
    match unmarshalStringSafe b with
    | .error e => .error e
    | .ok (handle, b) =>
      match unmarshalUint64Safe b with
      | .error e => .error e
      | .ok (offset, b) =>
        match unmarshalUint32Safe b with
        | .error e => .error e
        | .ok (len, _) => .ok ⟨id, handle, offset, len⟩

structure sshFxpRenamePacket where
  Id : Nat
  Oldpath : Bytes
  Newpath : Bytes
deriving DecidableEq, Repr

def sshFxpRenamePacket.precomputedLen (p : sshFxpRenamePacket) : Nat :=
  1 + 4 + (4 + p.Oldpath.length) + (4 + p.Newpath.length)

def sshFxpRenamePacket.MarshalBinary (p : sshFxpRenamePacket) : Bytes :=
  marshalString (marshalString (marshalUint32 [ssh_FXP_RENAME] p.Id) p.Oldpath) p.Newpath

def sshFxpRenamePacket.UnmarshalBinary (b : Bytes) : Except PacketError sshFxpRenamePacket :=
  match unmarshalUint32Safe b with
  | .error e => .error e
  | .ok (id, b) =>
    match unmarshalStringSafe b with
    | .error e => .error e
    | .ok (op, b) =>
      match unmarshalStringSafe b with
      | .error e => .error e
      | .ok (np, _) => .ok ⟨id, op, np⟩

structure sshFxpWritePacket where
  Id : Nat
  Handle : Bytes
  Offset : Nat
  Length : Nat
  Data : Bytes
deriving DecidableEq, Repr

def sshFxpWritePacket.precomputedLen (s : sshFxpWritePacket) : Nat :=
  1 + 4 + (4 + s.Handle.length) + (8 + 4) + s.Data.length

def sshFxpWritePacket.MarshalBinary (s : sshFxpWritePacket) : Bytes :=
  marshalUint32 (marshalUint64 (marshalString (marshalUint32 [ssh_FXP_WRITE] s.Id) s.Handle) s.Offset) s.Length ++ s.Data

/-- The declared-length guard is `uint32(len(b)) < p.Length` in the source:
the remaining length is truncated to `uint32` before the comparison. -/
def sshFxpWritePacket.UnmarshalBinary (b : Bytes) : Except PacketError sshFxpWritePacket :=
  match unmarshalUint32Safe b with
  | .error e => .error e
  | .ok (id, b) =>
    match unmarshalStringSafe b with
    | .error e => .error e
    | .ok (handle, b) =>
      match unmarshalUint64Safe b with
      | .error e => .error e
      | .ok (offset, b) =>
        match unmarshalUint32Safe b with
        | .error e => .error e
        | .ok (length, b) =>
          if b.length % 2 ^ 32 < length then .error .shortPacket
          else .ok ⟨id, handle, offset, length, b.take length⟩

structure sshFxpMkdirPacket where
  Id : Nat
  Path : Bytes
  Flags : Nat
deriving DecidableEq, Repr

def sshFxpMkdirPacket.precomputedLen (p : sshFxpMkdirPacket) : Nat :=
  1 + 4 + (4 + p.Path.length) + 4

def sshFxpMkdirPacket.MarshalBinary (p : sshFxpMkdirPacket) : Bytes :=
  marshalUint32 (marshalString (marshalUint32 [ssh_FXP_MKDIR] p.Id) p.Path) p.Flags

def sshFxpMkdirPacket.UnmarshalBinary (b : Bytes) : Except PacketError sshFxpMkdirPacket :=
  match unmarshalUint32Safe b with
  | .error e => .error e
  | .ok (id, b) =>
    match unmarshalStringSafe b with
    | .error e => .error e
    | .ok (path, b) =>
      match unmarshalUint32Safe b with
      | .error e => .error e
      | .ok (flags, _) => .ok ⟨id, path, flags⟩

/-- The Go `Attrs` field has type `interface{}`; the unmarshaller stores the
raw remaining bytes in it, and the generic `marshal` routine appends a byte
slice verbatim, so the field is modelled as raw bytes. -/
structure sshFxpSetstatPacket where
  Id : Nat
  Path : Bytes
  Flags : Nat
  Attrs : Bytes
deriving DecidableEq, Repr

def sshFxpSetstatPacket.precomputedLen (p : sshFxpSetstatPacket) : Nat :=
  1 + 4 + (4 + p.Path.length) + 4

def sshFxpSetstatPacket.MarshalBinary (p : sshFxpSetstatPacket) : Bytes :=
  marshalUint32 (marshalString (marshalUint32 [ssh_FXP_SETSTAT] p.Id) p.Path) p.Flags ++ p.Attrs

def sshFxpSetstatPacket.UnmarshalBinary (b : Bytes) : Except PacketError sshFxpSetstatPacket :=
  match unmarshalUint32Safe b with
  | .error e => .error e
  | .ok (id, b) =>
    match unmarshalStringSafe b with
    | .error e => .error e
    | .ok (path, b) =>
      match unmarshalUint32Safe b with
      | .error e => .error e
      | .ok (flags, b) => .ok ⟨id, path, flags, b⟩

structure sshFxpFsetstatPacket where
  Id : Nat
  Handle : Bytes
  Flags : Nat
  Attrs : Bytes
deriving DecidableEq, Repr

def sshFxpFsetstatPacket.precomputedLen (p : sshFxpFsetstatPacket) : Nat :=
  1 + 4 + (4 + p.Handle.length) + 4

def sshFxpFsetstatPacket.MarshalBinary (p : sshFxpFsetstatPacket) : Bytes :=
  marshalUint32 (marshalString (marshalUint32 [ssh_FXP_FSETSTAT] p.Id) p.Handle) p.Flags ++ p.Attrs

def sshFxpFsetstatPacket.UnmarshalBinary (b : Bytes) : Except PacketError sshFxpFsetstatPacket :=
  match unmarshalUint32Safe b with
  | .error e => .error e
  | .ok (id, b) =>
    match unmarshalStringSafe b with
    | .error e => .error e
    | .ok (handle, b) =>
      match unmarshalUint32Safe b with
      | .error e => .error e
      | .ok (flags, b) => .ok ⟨id, handle, flags, b⟩

structure sshFxpDataPacket where
  Id : Nat
  Length : Nat
  Data : Bytes
deriving DecidableEq, Repr

/-- The source appends `p.Data[:p.Length]`; the Go slice expression panics
when `Length > len(Data)`, so this model is meaningful for
`Length <= len(Data)` only. -/
def sshFxpDataPacket.MarshalBinary (p : sshFxpDataPacket) : Bytes :=
  marshalUint32 (marshalUint32 [ssh_FXP_DATA] p.Id) p.Length ++ p.Data.take p.Length

/-- The DATA length guard fails with `fmt.Errorf("truncated packet")`,
a different error value from `shortPacketError`; on success the source
copies `Length` bytes via `make` + `copy`. -/
def sshFxpDataPacket.UnmarshalBinary (b : Bytes) : Except PacketError sshFxpDataPacket :=
  match unmarshalUint32Safe b with
  | .error e => .error e
  | .ok (id, b) =>
    match unmarshalUint32Safe b with
    | .error e => .error e
    | .ok (length, b) =>
      if b.length % 2 ^ 32 < length then .error .truncatedPacket
      else .ok ⟨id, length, b.take length⟩

/-- The bytes of the extended-request name string `statvfs@openssh.com`. -/
def statvfsExtName : Bytes :=
  [115, 116, 97, 116, 118, 102, 115, 64, 111, 112, 101, 110, 115, 115, 104, 46, 99, 111, 109]

structure sshFxpStatvfsPacket where
  Id : Nat
  Path : Bytes
deriving DecidableEq, Repr

/-- The source computes `l = 1 + 4 + len(p.Path) + len("statvfs@openssh.com")`,
omitting the two 4-byte string length headers that the method then writes. -/
def sshFxpStatvfsPacket.precomputedLen (p : sshFxpStatvfsPacket) : Nat :=
  1 + 4 + p.Path.length + statvfsExtName.length

def sshFxpStatvfsPacket.MarshalBinary (p : sshFxpStatvfsPacket) : Bytes :=
  marshalString (marshalString (marshalUint32 [ssh_FXP_EXTENDED] p.Id) statvfsExtName) p.Path

/-- `StatVFS`: all fields are `uint64` except the `uint32` id. -/
structure StatVFS where
  Id : Nat
  Bsize : Nat
  Frsize : Nat
  Blocks : Nat
  Bfree : Nat
  Bavail : Nat
  Files : Nat
  Ffree : Nat
  Favail : Nat
  Fsid : Nat
  Flag : Nat
  Namemax : Nat
deriving DecidableEq, Repr

/-- `TotalSpace`: `p.Frsize * p.Blocks` with `uint64` wraparound. -/
def StatVFS.TotalSpace (p : StatVFS) : Nat :=
  p.Frsize * p.Blocks % 2 ^ 64

/-- `FreeSpace`: `p.Frsize * p.Bfree` with `uint64` wraparound. -/
def StatVFS.FreeSpace (p : StatVFS) : Nat :=
  p.Frsize * p.Bfree % 2 ^ 64

/-! ### Helper abbreviations for single encoded fields -/

/-- The four bytes of one big-endian `uint32` field. -/
def encUint32 (v : Nat) : Bytes := marshalUint32 [] v

/-- The eight bytes of one big-endian `uint64` field. -/
def encUint64 (v : Nat) : Bytes := marshalUint64 [] v

/-- The bytes of one length-prefixed string field. -/
def encString (s : Bytes) : Bytes := marshalString [] s

/-- The concatenated encoding of a list of extension pairs, as produced by
the marshalling loop of `sshFxInitPacket.MarshalBinary`. -/
def encExtensionPairs : List ExtensionPair → Bytes
  | [] => []
  | e :: t => encString e.Name ++ (encString e.Data ++ encExtensionPairs t)

/-! ### The closed catalog of kinds having both a marshaller and an
unmarshaller, for the round-trip and trailing-bytes statements. -/

inductive Packet where
  | initPk (p : sshFxInitPacket)
  | readdir (p : sshFxpReaddirPacket)
  | opendir (p : sshFxpOpendirPacket)
  | lstat (p : sshFxpLstatPacket)
  | stat (p : sshFxpStatPacket)
  | fstat (p : sshFxpFstatPacket)
  | close (p : sshFxpClosePacket)
  | remove (p : sshFxpRemovePacket)
  | rmdir (p : sshFxpRmdirPacket)
  | symlink (p : sshFxpSymlinkPacket)
  | readlink (p : sshFxpReadlinkPacket)
  | realpath (p : sshFxpRealpathPacket)
  | openPk (p : sshFxpOpenPacket)
  | read (p : sshFxpReadPacket)
  | rename (p : sshFxpRenamePacket)
  | write (p : sshFxpWritePacket)
  | mkdir (p : sshFxpMkdirPacket)
  | setstat (p : sshFxpSetstatPacket)
  | fsetstat (p : sshFxpFsetstatPacket)
  | data (p : sshFxpDataPacket)
deriving DecidableEq, Repr

/-- Dispatch to the `MarshalBinary` of the kind. -/
def Packet.marshalBinary : Packet → Bytes
  | .initPk p => p.MarshalBinary
  | .readdir p => p.MarshalBinary
  | .opendir p => p.MarshalBinary
  | .lstat p => p.MarshalBinary
  | .stat p => p.MarshalBinary
  | .fstat p => p.MarshalBinary
  | .close p => p.MarshalBinary
  | .remove p => p.MarshalBinary
  | .rmdir p => p.MarshalBinary
  | .symlink p => p.MarshalBinary
  | .readlink p => p.MarshalBinary
  | .realpath p => p.MarshalBinary
  | .openPk p => p.MarshalBinary
  | .read p => p.MarshalBinary
  | .rename p => p.MarshalBinary
  | .write p => p.MarshalBinary
  | .mkdir p => p.MarshalBinary
  | .setstat p => p.MarshalBinary
  | .fsetstat p => p.MarshalBinary
  | .data p => p.MarshalBinary

/-- Dispatch a body buffer to the `UnmarshalBinary` of the same kind as the
given packet (the decode routine a correct tag dispatcher would select). -/
def Packet.unmarshalSameKind : Packet → Bytes → Except PacketError Packet
  | .initPk _, b => (sshFxInitPacket.UnmarshalBinary b).map .initPk
  | .readdir _, b => (sshFxpReaddirPacket.UnmarshalBinary b).map .readdir
  | .opendir _, b => (sshFxpOpendirPacket.UnmarshalBinary b).map .opendir
  | .lstat _, b => (sshFxpLstatPacket.UnmarshalBinary b).map .lstat
  | .stat _, b => (sshFxpStatPacket.UnmarshalBinary b).map .stat
  | .fstat _, b => (sshFxpFstatPacket.UnmarshalBinary b).map .fstat
  | .close _, b => (sshFxpClosePacket.UnmarshalBinary b).map .close
  | .remove _, b => (sshFxpRemovePacket.UnmarshalBinary b).map .remove
  | .rmdir _, b => (sshFxpRmdirPacket.UnmarshalBinary b).map .rmdir
  | .symlink _, b => (sshFxpSymlinkPacket.UnmarshalBinary b).map .symlink
  | .readlink _, b => (sshFxpReadlinkPacket.UnmarshalBinary b).map .readlink
  | .realpath _, b => (sshFxpRealpathPacket.UnmarshalBinary b).map .realpath
  | .openPk _, b => (sshFxpOpenPacket.UnmarshalBinary b).map .openPk
  | .read _, b => (sshFxpReadPacket.UnmarshalBinary b).map .read
  | .rename _, b => (sshFxpRenamePacket.UnmarshalBinary b).map .rename
  | .write _, b => (sshFxpWritePacket.UnmarshalBinary b).map .write
  | .mkdir _, b => (sshFxpMkdirPacket.UnmarshalBinary b).map .mkdir
  | .setstat _, b => (sshFxpSetstatPacket.UnmarshalBinary b).map .setstat
  | .fsetstat _, b => (sshFxpFsetstatPacket.UnmarshalBinary b).map .fsetstat
  | .data _, b => (sshFxpDataPacket.UnmarshalBinary b).map .data

/-- Field well-formedness: every `uint32` / `uint64` field holds a value its
Go type can hold, strings are shorter than `2^32` bytes (Go permits longer
ones on 64-bit platforms, where the length prefix would wrap), and for
WRITE/DATA the declared `Length` equals the length of `Data`. -/
def Packet.wf : Packet → Bool
  | .initPk p => decide (p.Version < 2 ^ 32) &&
      p.Extensions.all fun e =>
        decide (e.Name.length < 2 ^ 32) && decide (e.Data.length < 2 ^ 32)
  | .readdir p => decide (p.Id < 2 ^ 32) && decide (p.Handle.length < 2 ^ 32)
  | .opendir p => decide (p.Id < 2 ^ 32) && decide (p.Path.length < 2 ^ 32)
  | .lstat p => decide (p.Id < 2 ^ 32) && decide (p.Path.length < 2 ^ 32)
  | .stat p => decide (p.Id < 2 ^ 32) && decide (p.Path.length < 2 ^ 32)
  | .fstat p => decide (p.Id < 2 ^ 32) && decide (p.Handle.length < 2 ^ 32)
  | .close p => decide (p.Id < 2 ^ 32) && decide (p.Handle.length < 2 ^ 32)
  | .remove p => decide (p.Id < 2 ^ 32) && decide (p.Filename.length < 2 ^ 32)
  | .rmdir p => decide (p.Id < 2 ^ 32) && decide (p.Path.length < 2 ^ 32)
  | .symlink p => decide (p.Id < 2 ^ 32) && decide (p.Targetpath.length < 2 ^ 32) &&
      decide (p.Linkpath.length < 2 ^ 32)
  | .readlink p => decide (p.Id < 2 ^ 32) && decide (p.Path.length < 2 ^ 32)
  | .realpath p => decide (p.Id < 2 ^ 32) && decide (p.Path.length < 2 ^ 32)
  | .openPk p => decide (p.Id < 2 ^ 32) && decide (p.Path.length < 2 ^ 32) &&
      decide (p.Pflags < 2 ^ 32) && decide (p.Flags < 2 ^ 32)
  | .read p => decide (p.Id < 2 ^ 32) && decide (p.Handle.length < 2 ^ 32) &&
      decide (p.Offset < 2 ^ 64) && decide (p.Len < 2 ^ 32)
  | .rename p => decide (p.Id < 2 ^ 32) && decide (p.Oldpath.length < 2 ^ 32) &&
      decide (p.Newpath.length < 2 ^ 32)
  | .write p => decide (p.Id < 2 ^ 32) && decide (p.Handle.length < 2 ^ 32) &&
      decide (p.Offset < 2 ^ 64) && decide (p.Length < 2 ^ 32) &&
      decide (p.Length = p.Data.length)
  | .mkdir p => decide (p.Id < 2 ^ 32) && decide (p.Path.length < 2 ^ 32) &&
      decide (p.Flags < 2 ^ 32)
  | .setstat p => decide (p.Id < 2 ^ 32) && decide (p.Path.length < 2 ^ 32) &&
      decide (p.Flags < 2 ^ 32)
  | .fsetstat p => decide (p.Id < 2 ^ 32) && decide (p.Handle.length < 2 ^ 32) &&
      decide (p.Flags < 2 ^ 32)
  | .data p => decide (p.Id < 2 ^ 32) && decide (p.Length < 2 ^ 32) &&
      decide (p.Length = p.Data.length)

/-- The kinds whose `UnmarshalBinary` reads a fixed sequence of declared
fields and stops: everything except INIT (which parses the whole rest of
the buffer as extension pairs) and SETSTAT/FSETSTAT (which store the whole
rest of the buffer in `Attrs`). -/
def Packet.fixedFieldKind : Packet → Bool
  | .initPk _ => false
  | .setstat _ => false
  | .fsetstat _ => false
  | _ => true

/-! ## Theorems -/

/-! ### Basic facts about the primitive codec -/

theorem marshalUint32_length (b : Bytes) (v : Nat) :
    (marshalUint32 b v).length = b.length + 4 := by
  simp [marshalUint32]

theorem marshalUint64_length (b : Bytes) (v : Nat) :
    (marshalUint64 b v).length = b.length + 8 := by
  simp [marshalUint64, marshalUint32_length]

theorem marshalString_length (b : Bytes) (v : Bytes) :
    (marshalString b v).length = b.length + 4 + v.length := by
  simp [marshalString, marshalUint32_length]

theorem marshalUint32_append (b : Bytes) (v : Nat) :
    marshalUint32 b v = b ++ marshalUint32 [] v := by
  simp [marshalUint32]

theorem marshalUint64_append (b : Bytes) (v : Nat) :
    marshalUint64 b v = b ++ marshalUint64 [] v := by
  simp [marshalUint64, marshalUint32, List.append_assoc]

theorem marshalString_append (b : Bytes) (v : Bytes) :
    marshalString b v = b ++ marshalString [] v := by
  simp [marshalString, marshalUint32, List.append_assoc]

/-- The unchecked `uint32` decode always leaves `b.drop 4` as the remainder. -/
theorem unmarshalUint32_snd (b : Bytes) : (unmarshalUint32 b).2 = b.drop 4 := by
  match b with
  | [] => rfl
  | [_] => rfl
  | [_, _] => rfl
  | [_, _, _] => rfl
  | _ :: _ :: _ :: _ :: _ => rfl

/-- The unchecked `uint32` decode reads only the first four bytes. -/
theorem unmarshalUint32_take (b : Bytes) :
    unmarshalUint32 b = ((unmarshalUint32 (b.take 4)).1, b.drop 4) := by
  match b with
  | [] => rfl
  | [_] => rfl
  | [_, _] => rfl
  | [_, _, _] => rfl
  | _ :: _ :: _ :: _ :: _ => simp [unmarshalUint32]

/-- Decoding four freshly encoded big-endian bytes recovers `v % 2^32`. -/
theorem unmarshalUint32_marshal (v : Nat) (rest : Bytes) :
    unmarshalUint32 (marshalUint32 [] v ++ rest) = (v % 2 ^ 32, rest) := by
  simp only [marshalUint32, List.nil_append, List.cons_append, List.append_nil,
    unmarshalUint32]
  refine Prod.ext ?_ rfl
  simp only [show (2 : Nat) ^ 8 = 256 from rfl, show (2 : Nat) ^ 16 = 65536 from rfl,
    show (2 : Nat) ^ 24 = 16777216 from rfl, show (2 : Nat) ^ 32 = 4294967296 from rfl]
  omega

theorem unmarshalUint32Safe_marshal (v : Nat) (rest : Bytes) (hv : v < 2 ^ 32) :
    unmarshalUint32Safe (marshalUint32 [] v ++ rest) = .ok (v, rest) := by
  have hl : (marshalUint32 [] v ++ rest).length = 4 + rest.length := by
    simp [marshalUint32_length]
  simp only [unmarshalUint32Safe, hl]
  rw [if_neg (by omega), unmarshalUint32_marshal, Nat.mod_eq_of_lt hv]

theorem unmarshalUint32Safe_marshal_nil (v : Nat) (hv : v < 2 ^ 32) :
    unmarshalUint32Safe (marshalUint32 [] v) = .ok (v, []) := by
  have h := unmarshalUint32Safe_marshal v [] hv
  simpa using h

theorem unmarshalUint64_marshal (v : Nat) (rest : Bytes) (hv : v < 2 ^ 64) :
    unmarshalUint64 (marshalUint64 [] v ++ rest) = (v, rest) := by
  have h : marshalUint64 [] v ++ rest =
      marshalUint32 [] (v / 2 ^ 32 % 2 ^ 32) ++ (marshalUint32 [] (v % 2 ^ 32) ++ rest) := by
    rw [marshalUint64, marshalUint32_append (marshalUint32 [] _), List.append_assoc]
  rw [h]
  simp only [unmarshalUint64, unmarshalUint32_marshal, Prod.mk.injEq, and_true]
  simp only [show (2 : Nat) ^ 32 = 4294967296 from by norm_num,
    show (2 : Nat) ^ 64 = 18446744073709551616 from by norm_num] at hv ⊢
  omega

theorem unmarshalUint64Safe_marshal (v : Nat) (rest : Bytes) (hv : v < 2 ^ 64) :
    unmarshalUint64Safe (marshalUint64 [] v ++ rest) = .ok (v, rest) := by
  have hl : (marshalUint64 [] v ++ rest).length = 8 + rest.length := by
    simp [marshalUint64_length]
  simp only [unmarshalUint64Safe, hl]
  rw [if_neg (by omega), unmarshalUint64_marshal v rest hv]

theorem unmarshalStringSafe_marshal (s : Bytes) (rest : Bytes) (hs : s.length < 2 ^ 32) :
    unmarshalStringSafe (marshalString [] s ++ rest) = .ok (s, rest) := by
  have h : marshalString [] s ++ rest =
      marshalUint32 [] (s.length % 2 ^ 32) ++ (s ++ rest) := by
    rw [marshalString, List.append_assoc]
  rw [Nat.mod_eq_of_lt hs] at h
  rw [h, unmarshalStringSafe, unmarshalUint32Safe_marshal s.length (s ++ rest) hs]
  simp [List.take_left, List.drop_left]

/-- Characterization of a successful checked `uint32` decode. -/
theorem unmarshalUint32Safe_ok {b : Bytes} {n : Nat} {r : Bytes}
    (h : unmarshalUint32Safe b = .ok (n, r)) :
    4 ≤ b.length ∧ n = (unmarshalUint32 b).1 ∧ r = b.drop 4 := by
  unfold unmarshalUint32Safe at h
  split at h
  · exact absurd h (by simp)
  · next hl =>
    rw [Except.ok.injEq] at h
    refine ⟨by omega, ?_, ?_⟩
    · rw [h]
    · rw [← unmarshalUint32_snd, h]

/-- Characterization of a successful checked string decode. -/
theorem unmarshalStringSafe_ok {b s r : Bytes}
    (h : unmarshalStringSafe b = .ok (s, r)) :
    4 ≤ b.length ∧ (unmarshalUint32 b).1 ≤ b.length - 4 ∧
      s = (b.drop 4).take (unmarshalUint32 b).1 ∧
      r = (b.drop 4).drop (unmarshalUint32 b).1 := by
  unfold unmarshalStringSafe at h
  split at h
  · exact absurd h (by simp)
  · next n b1 heq =>
    obtain ⟨hl, hn, hb1⟩ := unmarshalUint32Safe_ok heq
    subst hn; subst hb1
    split at h
    · exact absurd h (by simp)
    · next hgt =>
      rw [Except.ok.injEq, Prod.mk.injEq] at h
      obtain ⟨hs, hr⟩ := h
      simp only [List.length_drop, gt_iff_lt, not_lt] at hgt
      exact ⟨hl, by omega, hs.symm, hr.symm⟩

theorem unmarshalStringSafe_consumes {b s r : Bytes}
    (h : unmarshalStringSafe b = .ok (s, r)) : r.length + 4 ≤ b.length := by
  obtain ⟨hl, hn, hs, hr⟩ := unmarshalStringSafe_ok h
  subst hr
  simp only [List.length_drop]
  omega

theorem unmarshalExtensionPair_consumes {b : Bytes} {ep : ExtensionPair} {r : Bytes}
    (h : unmarshalExtensionPair b = .ok (ep, r)) : r.length + 8 ≤ b.length := by
  unfold unmarshalExtensionPair at h
  split at h
  · exact absurd h (by simp)
  · next name b1 heq1 =>
    split at h
    · exact absurd h (by simp)
    · next data b2 heq2 =>
      rw [Except.ok.injEq, Prod.mk.injEq] at h
      obtain ⟨-, hb2⟩ := h
      subst hb2
      have hc1 := unmarshalStringSafe_consumes heq1
      have hc2 := unmarshalStringSafe_consumes heq2
      omega

/-- Fuel irrelevance: any two sufficient fuels give the same loop result. -/
theorem parseExtensionsAux_irrel :
    ∀ (fuel fuel2 : Nat) (b : Bytes), b.length ≤ fuel → b.length ≤ fuel2 →
      parseExtensionsAux fuel b = parseExtensionsAux fuel2 b := by
  intro fuel
  induction fuel with
  | zero =>
    intro fuel2 b hb _
    have hnil : b = [] := List.length_eq_zero.mp (Nat.le_zero.mp hb)
    subst hnil
    cases fuel2 <;> rfl
  | succ f ih =>
    intro fuel2 b hb hb2
    cases b with
    | nil => cases fuel2 <;> rfl
    | cons x xs =>
      cases fuel2 with
      | zero => simp at hb2
      | succ f2 =>
        unfold parseExtensionsAux
        cases hp : unmarshalExtensionPair (x :: xs) with
        | error e => rfl
        | ok v =>
          obtain ⟨ep, rest⟩ := v
          have hc := unmarshalExtensionPair_consumes hp
          simp only [List.length_cons] at hb hb2 hc
          dsimp only
          rw [ih f2 rest (by omega) (by omega)]

/-- Any fuel at least `b.length` computes `parseExtensions b`. -/
theorem parseExtensionsAux_fuel (fuel : Nat) (b : Bytes) (hf : b.length ≤ fuel) :
    parseExtensionsAux fuel b = parseExtensions b :=
  parseExtensionsAux_irrel fuel b.length b hf le_rfl

/-! ### Rewriting marshallers into concatenations of encoded fields -/

theorem marshalUint32_eq (b : Bytes) (v : Nat) :
    marshalUint32 b v = b ++ encUint32 v := marshalUint32_append b v

theorem marshalUint64_eq (b : Bytes) (v : Nat) :
    marshalUint64 b v = b ++ encUint64 v := marshalUint64_append b v

theorem marshalString_eq (b : Bytes) (v : Bytes) :
    marshalString b v = b ++ encString v := marshalString_append b v

theorem encUint32_length (v : Nat) : (encUint32 v).length = 4 := by
  simp [encUint32, marshalUint32_length]

theorem encUint64_length (v : Nat) : (encUint64 v).length = 8 := by
  simp [encUint64, marshalUint64_length]

theorem encString_length (s : Bytes) : (encString s).length = 4 + s.length := by
  simp [encString, marshalString_length]

theorem unmarshalUint32Safe_enc (v : Nat) (rest : Bytes) (hv : v < 2 ^ 32) :
    unmarshalUint32Safe (encUint32 v ++ rest) = .ok (v, rest) :=
  unmarshalUint32Safe_marshal v rest hv

theorem unmarshalUint32Safe_enc_nil (v : Nat) (hv : v < 2 ^ 32) :
    unmarshalUint32Safe (encUint32 v) = .ok (v, []) :=
  unmarshalUint32Safe_marshal_nil v hv

theorem unmarshalUint64Safe_enc (v : Nat) (rest : Bytes) (hv : v < 2 ^ 64) :
    unmarshalUint64Safe (encUint64 v ++ rest) = .ok (v, rest) :=
  unmarshalUint64Safe_marshal v rest hv

theorem unmarshalUint64Safe_enc_nil (v : Nat) (hv : v < 2 ^ 64) :
    unmarshalUint64Safe (encUint64 v) = .ok (v, []) := by
  have h := unmarshalUint64Safe_marshal v [] hv
  simpa [encUint64] using h

theorem unmarshalStringSafe_enc (s rest : Bytes) (hs : s.length < 2 ^ 32) :
    unmarshalStringSafe (encString s ++ rest) = .ok (s, rest) :=
  unmarshalStringSafe_marshal s rest hs

theorem unmarshalStringSafe_enc_nil (s : Bytes) (hs : s.length < 2 ^ 32) :
    unmarshalStringSafe (encString s) = .ok (s, []) := by
  have h := unmarshalStringSafe_marshal s [] hs
  simpa [encString] using h

theorem marshalIdString_shape (t id : Nat) (s : Bytes) :
    marshalIdString t id s = t :: (encUint32 id ++ encString s) := by
  simp [marshalIdString, marshalString_eq, marshalUint32_eq, List.append_assoc]

theorem marshalIdString_length (t id : Nat) (s : Bytes) :
    (marshalIdString t id s).length = 9 + s.length := by
  simp [marshalIdString_shape, encUint32_length, encString_length]
  omega

/-- `unmarshalIdString` applied to a freshly encoded id and string. -/
theorem unmarshalIdString_enc (id : Nat) (s : Bytes) (hid : id < 2 ^ 32)
    (hs : s.length < 2 ^ 32) :
    unmarshalIdString (encUint32 id ++ encString s) = .ok (id, s) := by
  unfold unmarshalIdString
  rw [unmarshalUint32Safe_enc id (encString s) hid]
  dsimp only
  rw [unmarshalStringSafe_enc_nil s hs]

/-! ### Shapes of the marshalled packets -/

theorem foldl_marshal_pairs (eps : List ExtensionPair) (acc : Bytes) :
    eps.foldl (fun b e => marshalString (marshalString b e.Name) e.Data) acc =
      acc ++ encExtensionPairs eps := by
  induction eps generalizing acc with
  | nil => simp [encExtensionPairs]
  | cons e t ih =>
    rw [List.foldl_cons, ih]
    simp [encExtensionPairs, marshalString_eq, List.append_assoc]

theorem init_shape (p : sshFxInitPacket) :
    p.MarshalBinary = ssh_FXP_INIT :: (encUint32 p.Version ++ encExtensionPairs p.Extensions) := by
  simp [sshFxInitPacket.MarshalBinary, foldl_marshal_pairs, marshalUint32_eq]

theorem symlink_shape (p : sshFxpSymlinkPacket) :
    p.MarshalBinary = ssh_FXP_SYMLINK ::
      (encUint32 p.Id ++ (encString p.Targetpath ++ encString p.Linkpath)) := by
  simp [sshFxpSymlinkPacket.MarshalBinary, marshalString_eq, marshalUint32_eq, List.append_assoc]

theorem open_shape (p : sshFxpOpenPacket) :
    p.MarshalBinary = ssh_FXP_OPEN ::
      (encUint32 p.Id ++ (encString p.Path ++ (encUint32 p.Pflags ++ encUint32 p.Flags))) := by
  simp [sshFxpOpenPacket.MarshalBinary, marshalString_eq, marshalUint32_eq, List.append_assoc]

theorem read_shape (p : sshFxpReadPacket) :
    p.MarshalBinary = ssh_FXP_READ ::
      (encUint32 p.Id ++ (encString p.Handle ++ (encUint64 p.Offset ++ encUint32 p.Len))) := by
  simp [sshFxpReadPacket.MarshalBinary, marshalString_eq, marshalUint32_eq, marshalUint64_eq,
    List.append_assoc]

theorem rename_shape (p : sshFxpRenamePacket) :
    p.MarshalBinary = ssh_FXP_RENAME ::
      (encUint32 p.Id ++ (encString p.Oldpath ++ encString p.Newpath)) := by
  simp [sshFxpRenamePacket.MarshalBinary, marshalString_eq, marshalUint32_eq, List.append_assoc]

theorem write_shape (s : sshFxpWritePacket) :
    s.MarshalBinary = ssh_FXP_WRITE ::
      (encUint32 s.Id ++ (encString s.Handle ++ (encUint64 s.Offset ++
        (encUint32 s.Length ++ s.Data)))) := by
  simp [sshFxpWritePacket.MarshalBinary, marshalString_eq, marshalUint32_eq, marshalUint64_eq,
    List.append_assoc]

theorem mkdir_shape (p : sshFxpMkdirPacket) :
    p.MarshalBinary = ssh_FXP_MKDIR ::
      (encUint32 p.Id ++ (encString p.Path ++ encUint32 p.Flags)) := by
  simp [sshFxpMkdirPacket.MarshalBinary, marshalString_eq, marshalUint32_eq, List.append_assoc]

theorem setstat_shape (p : sshFxpSetstatPacket) :
    p.MarshalBinary = ssh_FXP_SETSTAT ::
      (encUint32 p.Id ++ (encString p.Path ++ (encUint32 p.Flags ++ p.Attrs))) := by
  simp [sshFxpSetstatPacket.MarshalBinary, marshalString_eq, marshalUint32_eq, List.append_assoc]

theorem fsetstat_shape (p : sshFxpFsetstatPacket) :
    p.MarshalBinary = ssh_FXP_FSETSTAT ::
      (encUint32 p.Id ++ (encString p.Handle ++ (encUint32 p.Flags ++ p.Attrs))) := by
  simp [sshFxpFsetstatPacket.MarshalBinary, marshalString_eq, marshalUint32_eq, List.append_assoc]

theorem data_shape (p : sshFxpDataPacket) :
    p.MarshalBinary = ssh_FXP_DATA ::
      (encUint32 p.Id ++ (encUint32 p.Length ++ p.Data.take p.Length)) := by
  simp [sshFxpDataPacket.MarshalBinary, marshalUint32_eq, List.append_assoc]

theorem statvfs_shape (p : sshFxpStatvfsPacket) :
    p.MarshalBinary = ssh_FXP_EXTENDED ::
      (encUint32 p.Id ++ (encString statvfsExtName ++ encString p.Path)) := by
  simp [sshFxpStatvfsPacket.MarshalBinary, marshalString_eq, marshalUint32_eq, List.append_assoc]

/-! ### Parsing freshly encoded extension lists -/

theorem unmarshalExtensionPair_enc (n d rest : Bytes) (hn : n.length < 2 ^ 32)
    (hd : d.length < 2 ^ 32) :
    unmarshalExtensionPair (encString n ++ (encString d ++ rest)) = .ok (⟨n, d⟩, rest) := by
  unfold unmarshalExtensionPair
  rw [unmarshalStringSafe_enc n (encString d ++ rest) hn]
  dsimp only
  rw [unmarshalStringSafe_enc d rest hd]

theorem parseExtensions_cons (x : Nat) (xs : Bytes) :
    parseExtensions (x :: xs) =
      match unmarshalExtensionPair (x :: xs) with
      | .error e => .error e
      | .ok (ep, rest) =>
        match parseExtensions rest with
        | .error e => .error e
        | .ok eps => .ok (ep :: eps) := by
  have h0 : parseExtensions (x :: xs) = parseExtensionsAux (xs.length + 1) (x :: xs) := by
    unfold parseExtensions
    rw [List.length_cons]
  rw [h0]
  unfold parseExtensionsAux
  cases hp : unmarshalExtensionPair (x :: xs) with
  | error e => rfl
  | ok v =>
    obtain ⟨ep, rest⟩ := v
    have hc := unmarshalExtensionPair_consumes hp
    simp only [List.length_cons] at hc
    dsimp only
    rw [parseExtensionsAux_fuel xs.length rest (by omega)]

theorem parseExtensions_enc (eps : List ExtensionPair)
    (h : ∀ e ∈ eps, e.Name.length < 2 ^ 32 ∧ e.Data.length < 2 ^ 32) :
    parseExtensions (encExtensionPairs eps) = .ok eps := by
  induction eps with
  | nil => rfl
  | cons e t ih =>
    have he := h e (by simp)
    have hb : encExtensionPairs (e :: t) =
        encString e.Name ++ (encString e.Data ++ encExtensionPairs t) := rfl
    have hlen : 0 < (encExtensionPairs (e :: t)).length := by
      rw [hb]
      simp [encString_length]
    obtain ⟨x, xs, hx⟩ := List.exists_cons_of_ne_nil (List.ne_nil_of_length_pos hlen)
    rw [hx] at hb ⊢
    rw [parseExtensions_cons, hb, unmarshalExtensionPair_enc _ _ _ he.1 he.2]
    dsimp only
    rw [ih fun e hmem => h e (by simp [hmem])]

/-! ### Round trips, kind by kind -/

theorem init_roundtrip (p : sshFxInitPacket) (hv : p.Version < 2 ^ 32)
    (hext : ∀ e ∈ p.Extensions, e.Name.length < 2 ^ 32 ∧ e.Data.length < 2 ^ 32) :
    sshFxInitPacket.UnmarshalBinary (p.MarshalBinary.drop 1) = .ok p := by
  rw [init_shape]
  simp only [List.drop_succ_cons, List.drop_zero]
  unfold sshFxInitPacket.UnmarshalBinary
  rw [unmarshalUint32Safe_enc _ _ hv]
  dsimp only
  rw [parseExtensions_enc _ hext]

theorem readdir_roundtrip (p : sshFxpReaddirPacket) (h1 : p.Id < 2 ^ 32)
    (h2 : p.Handle.length < 2 ^ 32) :
    sshFxpReaddirPacket.UnmarshalBinary (p.MarshalBinary.drop 1) = .ok p := by
  unfold sshFxpReaddirPacket.MarshalBinary sshFxpReaddirPacket.UnmarshalBinary
  rw [marshalIdString_shape]
  simp only [List.drop_succ_cons, List.drop_zero]
  rw [unmarshalIdString_enc p.Id p.Handle h1 h2]
  rfl

theorem opendir_roundtrip (p : sshFxpOpendirPacket) (h1 : p.Id < 2 ^ 32)
    (h2 : p.Path.length < 2 ^ 32) :
    sshFxpOpendirPacket.UnmarshalBinary (p.MarshalBinary.drop 1) = .ok p := by
  unfold sshFxpOpendirPacket.MarshalBinary sshFxpOpendirPacket.UnmarshalBinary
  rw [marshalIdString_shape]
  simp only [List.drop_succ_cons, List.drop_zero]
  rw [unmarshalIdString_enc p.Id p.Path h1 h2]
  rfl

theorem lstat_roundtrip (p : sshFxpLstatPacket) (h1 : p.Id < 2 ^ 32)
    (h2 : p.Path.length < 2 ^ 32) :
    sshFxpLstatPacket.UnmarshalBinary (p.MarshalBinary.drop 1) = .ok p := by
  unfold sshFxpLstatPacket.MarshalBinary sshFxpLstatPacket.UnmarshalBinary
  rw [marshalIdString_shape]
  simp only [List.drop_succ_cons, List.drop_zero]
  rw [unmarshalIdString_enc p.Id p.Path h1 h2]
  rfl

theorem stat_roundtrip (p : sshFxpStatPacket) (h1 : p.Id < 2 ^ 32)
    (h2 : p.Path.length < 2 ^ 32) :
    sshFxpStatPacket.UnmarshalBinary (p.MarshalBinary.drop 1) = .ok p := by
  unfold sshFxpStatPacket.MarshalBinary sshFxpStatPacket.UnmarshalBinary
  rw [marshalIdString_shape]
  simp only [List.drop_succ_cons, List.drop_zero]
  rw [unmarshalIdString_enc p.Id p.Path h1 h2]
  rfl

theorem fstat_roundtrip (p : sshFxpFstatPacket) (h1 : p.Id < 2 ^ 32)
    (h2 : p.Handle.length < 2 ^ 32) :
    sshFxpFstatPacket.UnmarshalBinary (p.MarshalBinary.drop 1) = .ok p := by
  unfold sshFxpFstatPacket.MarshalBinary sshFxpFstatPacket.UnmarshalBinary
  rw [marshalIdString_shape]
  simp only [List.drop_succ_cons, List.drop_zero]
  rw [unmarshalIdString_enc p.Id p.Handle h1 h2]
  rfl

theorem close_roundtrip (p : sshFxpClosePacket) (h1 : p.Id < 2 ^ 32)
    (h2 : p.Handle.length < 2 ^ 32) :
    sshFxpClosePacket.UnmarshalBinary (p.MarshalBinary.drop 1) = .ok p := by
  unfold sshFxpClosePacket.MarshalBinary sshFxpClosePacket.UnmarshalBinary
  rw [marshalIdString_shape]
  simp only [List.drop_succ_cons, List.drop_zero]
  rw [unmarshalIdString_enc p.Id p.Handle h1 h2]
  rfl

theorem remove_roundtrip (p : sshFxpRemovePacket) (h1 : p.Id < 2 ^ 32)
    (h2 : p.Filename.length < 2 ^ 32) :
    sshFxpRemovePacket.UnmarshalBinary (p.MarshalBinary.drop 1) = .ok p := by
  unfold sshFxpRemovePacket.MarshalBinary sshFxpRemovePacket.UnmarshalBinary
  rw [marshalIdString_shape]
  simp only [List.drop_succ_cons, List.drop_zero]
  rw [unmarshalIdString_enc p.Id p.Filename h1 h2]
  rfl

theorem rmdir_roundtrip (p : sshFxpRmdirPacket) (h1 : p.Id < 2 ^ 32)
    (h2 : p.Path.length < 2 ^ 32) :
    sshFxpRmdirPacket.UnmarshalBinary (p.MarshalBinary.drop 1) = .ok p := by
  unfold sshFxpRmdirPacket.MarshalBinary sshFxpRmdirPacket.UnmarshalBinary
  rw [marshalIdString_shape]
  simp only [List.drop_succ_cons, List.drop_zero]
  rw [unmarshalIdString_enc p.Id p.Path h1 h2]
  rfl

theorem readlink_roundtrip (p : sshFxpReadlinkPacket) (h1 : p.Id < 2 ^ 32)
    (h2 : p.Path.length < 2 ^ 32) :
    sshFxpReadlinkPacket.UnmarshalBinary (p.MarshalBinary.drop 1) = .ok p := by
  unfold sshFxpReadlinkPacket.MarshalBinary sshFxpReadlinkPacket.UnmarshalBinary
  rw [marshalIdString_shape]
  simp only [List.drop_succ_cons, List.drop_zero]
  rw [unmarshalIdString_enc p.Id p.Path h1 h2]
  rfl

theorem realpath_roundtrip (p : sshFxpRealpathPacket) (h1 : p.Id < 2 ^ 32)
    (h2 : p.Path.length < 2 ^ 32) :
    sshFxpRealpathPacket.UnmarshalBinary (p.MarshalBinary.drop 1) = .ok p := by
  unfold sshFxpRealpathPacket.MarshalBinary sshFxpRealpathPacket.UnmarshalBinary
  rw [marshalIdString_shape]
  simp only [List.drop_succ_cons, List.drop_zero]
  rw [unmarshalIdString_enc p.Id p.Path h1 h2]
  rfl

theorem symlink_roundtrip (p : sshFxpSymlinkPacket) (h1 : p.Id < 2 ^ 32)
    (h2 : p.Targetpath.length < 2 ^ 32) (h3 : p.Linkpath.length < 2 ^ 32) :
    sshFxpSymlinkPacket.UnmarshalBinary (p.MarshalBinary.drop 1) = .ok p := by
  rw [symlink_shape]
  simp only [List.drop_succ_cons, List.drop_zero]
  unfold sshFxpSymlinkPacket.UnmarshalBinary
  rw [unmarshalUint32Safe_enc _ _ h1]
  dsimp only
  rw [unmarshalStringSafe_enc _ _ h2]
  dsimp only
  rw [unmarshalStringSafe_enc_nil _ h3]

theorem open_roundtrip (p : sshFxpOpenPacket) (h1 : p.Id < 2 ^ 32)
    (h2 : p.Path.length < 2 ^ 32) (h3 : p.Pflags < 2 ^ 32) (h4 : p.Flags < 2 ^ 32) :
    sshFxpOpenPacket.UnmarshalBinary (p.MarshalBinary.drop 1) = .ok p := by
  rw [open_shape]
  simp only [List.drop_succ_cons, List.drop_zero]
  unfold sshFxpOpenPacket.UnmarshalBinary
  rw [unmarshalUint32Safe_enc _ _ h1]
  dsimp only
  rw [unmarshalStringSafe_enc _ _ h2]
  dsimp only
  rw [unmarshalUint32Safe_enc _ _ h3]
  dsimp only
  rw [unmarshalUint32Safe_enc_nil _ h4]

theorem read_roundtrip (p : sshFxpReadPacket) (h1 : p.Id < 2 ^ 32)
    (h2 : p.Handle.length < 2 ^ 32) (h3 : p.Offset < 2 ^ 64) (h4 : p.Len < 2 ^ 32) :
    sshFxpReadPacket.UnmarshalBinary (p.MarshalBinary.drop 1) = .ok p := by
  rw [read_shape]
  simp only [List.drop_succ_cons, List.drop_zero]
  unfold sshFxpReadPacket.UnmarshalBinary
  rw [unmarshalUint32Safe_enc _ _ h1]
  dsimp only
  rw [unmarshalStringSafe_enc _ _ h2]
  dsimp only
  rw [unmarshalUint64Safe_enc _ _ h3]
  dsimp only
  rw [unmarshalUint32Safe_enc_nil _ h4]

theorem rename_roundtrip (p : sshFxpRenamePacket) (h1 : p.Id < 2 ^ 32)
    (h2 : p.Oldpath.length < 2 ^ 32) (h3 : p.Newpath.length < 2 ^ 32) :
    sshFxpRenamePacket.UnmarshalBinary (p.MarshalBinary.drop 1) = .ok p := by
  rw [rename_shape]
  simp only [List.drop_succ_cons, List.drop_zero]
  unfold sshFxpRenamePacket.UnmarshalBinary
  rw [unmarshalUint32Safe_enc _ _ h1]
  dsimp only
  rw [unmarshalStringSafe_enc _ _ h2]
  dsimp only
  rw [unmarshalStringSafe_enc_nil _ h3]

theorem write_roundtrip (s : sshFxpWritePacket) (h1 : s.Id < 2 ^ 32)
    (h2 : s.Handle.length < 2 ^ 32) (h3 : s.Offset < 2 ^ 64) (h4 : s.Length < 2 ^ 32)
    (h5 : s.Length = s.Data.length) :
    sshFxpWritePacket.UnmarshalBinary (s.MarshalBinary.drop 1) = .ok s := by
  rw [write_shape]
  simp only [List.drop_succ_cons, List.drop_zero]
  unfold sshFxpWritePacket.UnmarshalBinary
  rw [unmarshalUint32Safe_enc _ _ h1]
  dsimp only
  rw [unmarshalStringSafe_enc _ _ h2]
  dsimp only
  rw [unmarshalUint64Safe_enc _ _ h3]
  dsimp only
  rw [unmarshalUint32Safe_enc _ _ h4]
  dsimp only
  rw [← h5, Nat.mod_eq_of_lt h4, if_neg (lt_irrefl _)]
  rw [h5, List.take_length, ← h5]

theorem mkdir_roundtrip (p : sshFxpMkdirPacket) (h1 : p.Id < 2 ^ 32)
    (h2 : p.Path.length < 2 ^ 32) (h3 : p.Flags < 2 ^ 32) :
    sshFxpMkdirPacket.UnmarshalBinary (p.MarshalBinary.drop 1) = .ok p := by
  rw [mkdir_shape]
  simp only [List.drop_succ_cons, List.drop_zero]
  unfold sshFxpMkdirPacket.UnmarshalBinary
  rw [unmarshalUint32Safe_enc _ _ h1]
  dsimp only
  rw [unmarshalStringSafe_enc _ _ h2]
  dsimp only
  rw [unmarshalUint32Safe_enc_nil _ h3]

theorem setstat_roundtrip (p : sshFxpSetstatPacket) (h1 : p.Id < 2 ^ 32)
    (h2 : p.Path.length < 2 ^ 32) (h3 : p.Flags < 2 ^ 32) :
    sshFxpSetstatPacket.UnmarshalBinary (p.MarshalBinary.drop 1) = .ok p := by
  rw [setstat_shape]
  simp only [List.drop_succ_cons, List.drop_zero]
  unfold sshFxpSetstatPacket.UnmarshalBinary
  rw [unmarshalUint32Safe_enc _ _ h1]
  dsimp only
  rw [unmarshalStringSafe_enc _ _ h2]
  dsimp only
  rw [unmarshalUint32Safe_enc _ _ h3]

theorem fsetstat_roundtrip (p : sshFxpFsetstatPacket) (h1 : p.Id < 2 ^ 32)
    (h2 : p.Handle.length < 2 ^ 32) (h3 : p.Flags < 2 ^ 32) :
    sshFxpFsetstatPacket.UnmarshalBinary (p.MarshalBinary.drop 1) = .ok p := by
  rw [fsetstat_shape]
  simp only [List.drop_succ_cons, List.drop_zero]
  unfold sshFxpFsetstatPacket.UnmarshalBinary
  rw [unmarshalUint32Safe_enc _ _ h1]
  dsimp only
  rw [unmarshalStringSafe_enc _ _ h2]
  dsimp only
  rw [unmarshalUint32Safe_enc _ _ h3]

theorem data_roundtrip (p : sshFxpDataPacket) (h1 : p.Id < 2 ^ 32)
    (h2 : p.Length < 2 ^ 32) (h3 : p.Length = p.Data.length) :
    sshFxpDataPacket.UnmarshalBinary (p.MarshalBinary.drop 1) = .ok p := by
  have hD : p.Data.take p.Length = p.Data := by
    rw [h3]
    exact List.take_length p.Data
  rw [data_shape, hD]
  simp only [List.drop_succ_cons, List.drop_zero]
  unfold sshFxpDataPacket.UnmarshalBinary
  rw [unmarshalUint32Safe_enc _ _ h1]
  dsimp only
  rw [unmarshalUint32Safe_enc _ _ h2]
  dsimp only
  rw [← h3, Nat.mod_eq_of_lt h2, if_neg (lt_irrefl _), hD]

/-! ### Prefix stability: a successful decode is unchanged by trailing bytes -/

theorem unmarshalUint32_fst_take (b : Bytes) :
    (unmarshalUint32 b).1 = (unmarshalUint32 (b.take 4)).1 := by
  conv_lhs => rw [unmarshalUint32_take b]

theorem unmarshalUint32_fst_append {b : Bytes} (e : Bytes) (hl : 4 ≤ b.length) :
    (unmarshalUint32 (b ++ e)).1 = (unmarshalUint32 b).1 := by
  rw [unmarshalUint32_fst_take (b ++ e), List.take_append_of_le_length hl,
    ← unmarshalUint32_fst_take b]

theorem unmarshalUint32Safe_ok_append {b : Bytes} {v : Nat} {r : Bytes} (e : Bytes)
    (h : unmarshalUint32Safe b = .ok (v, r)) :
    unmarshalUint32Safe (b ++ e) = .ok (v, r ++ e) := by
  obtain ⟨hl, hv, hr⟩ := unmarshalUint32Safe_ok h
  subst hv
  subst hr
  unfold unmarshalUint32Safe
  rw [if_neg (by simp only [List.length_append]; omega)]
  rw [unmarshalUint32_take (b ++ e), List.take_append_of_le_length hl,
    List.drop_append_of_le_length hl, ← unmarshalUint32_fst_take b]

theorem unmarshalUint64Safe_ok {b : Bytes} {v : Nat} {r : Bytes}
    (h : unmarshalUint64Safe b = .ok (v, r)) : 8 ≤ b.length ∧ r = b.drop 8 := by
  unfold unmarshalUint64Safe at h
  split at h
  · exact absurd h (by simp)
  · next hl =>
    rw [Except.ok.injEq] at h
    have h2 := congrArg Prod.snd h
    simp only [unmarshalUint64, unmarshalUint32_snd, List.drop_drop] at h2
    refine ⟨by omega, ?_⟩
    rw [← h2]

theorem unmarshalUint64_append {b : Bytes} (e : Bytes) (hl : 8 ≤ b.length) :
    unmarshalUint64 (b ++ e) = ((unmarshalUint64 b).1, (unmarshalUint64 b).2 ++ e) := by
  have h4 : 4 ≤ b.length := by omega
  have hd : 4 ≤ (b.drop 4).length := by
    simp only [List.length_drop]
    omega
  simp only [unmarshalUint64, unmarshalUint32_snd, List.drop_append_of_le_length h4]
  rw [unmarshalUint32_fst_append e h4, unmarshalUint32_fst_append e hd,
    List.drop_append_of_le_length hd]

theorem unmarshalUint64Safe_ok_append {b : Bytes} {v : Nat} {r : Bytes} (e : Bytes)
    (h : unmarshalUint64Safe b = .ok (v, r)) :
    unmarshalUint64Safe (b ++ e) = .ok (v, r ++ e) := by
  unfold unmarshalUint64Safe at h ⊢
  split at h
  · exact absurd h (by simp)
  · next hl =>
    rw [Except.ok.injEq] at h
    rw [if_neg (by simp only [List.length_append]; omega)]
    rw [unmarshalUint64_append e (by omega), h]

theorem unmarshalStringSafe_ok_append {b s r : Bytes} (e : Bytes)
    (h : unmarshalStringSafe b = .ok (s, r)) :
    unmarshalStringSafe (b ++ e) = .ok (s, r ++ e) := by
  obtain ⟨hl, hn, hs, hr⟩ := unmarshalStringSafe_ok h
  subst hs
  subst hr
  have hub : unmarshalUint32Safe b = .ok ((unmarshalUint32 b).1, b.drop 4) := by
    unfold unmarshalUint32Safe
    rw [if_neg (by omega)]
    conv_lhs => rw [unmarshalUint32_take b]
    rw [← unmarshalUint32_fst_take b]
  unfold unmarshalStringSafe
  rw [unmarshalUint32Safe_ok_append e hub]
  dsimp only
  rw [if_neg (by simp only [List.length_append, List.length_drop]; omega)]
  have hnd : (unmarshalUint32 b).1 ≤ (b.drop 4).length := by
    simp only [List.length_drop]
    omega
  rw [List.take_append_of_le_length hnd, List.drop_append_of_le_length hnd]

theorem unmarshalIdString_ok_append {b : Bytes} {id : Nat} {s : Bytes} (e : Bytes)
    (h : unmarshalIdString b = .ok (id, s)) :
    unmarshalIdString (b ++ e) = .ok (id, s) := by
  unfold unmarshalIdString at h ⊢
  split at h
  · exact absurd h (by simp)
  · next n b1 heq =>
    split at h
    · exact absurd h (by simp)
    · next s1 b2 heq2 =>
      rw [unmarshalUint32Safe_ok_append e heq]
      dsimp only
      rw [unmarshalStringSafe_ok_append e heq2]
      dsimp only
      exact h

theorem readdir_append {b : Bytes} {p : sshFxpReaddirPacket} (e : Bytes)
    (h : sshFxpReaddirPacket.UnmarshalBinary b = .ok p) :
    sshFxpReaddirPacket.UnmarshalBinary (b ++ e) = .ok p := by
  unfold sshFxpReaddirPacket.UnmarshalBinary at h ⊢
  cases hi : unmarshalIdString b with
  | error err => rw [hi] at h; exact absurd h (by simp [Except.map])
  | ok v =>
    rw [hi] at h
    obtain ⟨id, s⟩ := v
    rw [unmarshalIdString_ok_append e hi]
    exact h

theorem opendir_append {b : Bytes} {p : sshFxpOpendirPacket} (e : Bytes)
    (h : sshFxpOpendirPacket.UnmarshalBinary b = .ok p) :
    sshFxpOpendirPacket.UnmarshalBinary (b ++ e) = .ok p := by
  unfold sshFxpOpendirPacket.UnmarshalBinary at h ⊢
  cases hi : unmarshalIdString b with
  | error err => rw [hi] at h; exact absurd h (by simp [Except.map])
  | ok v =>
    rw [hi] at h
    obtain ⟨id, s⟩ := v
    rw [unmarshalIdString_ok_append e hi]
    exact h

theorem lstat_append {b : Bytes} {p : sshFxpLstatPacket} (e : Bytes)
    (h : sshFxpLstatPacket.UnmarshalBinary b = .ok p) :
    sshFxpLstatPacket.UnmarshalBinary (b ++ e) = .ok p := by
  unfold sshFxpLstatPacket.UnmarshalBinary at h ⊢
  cases hi : unmarshalIdString b with
  | error err => rw [hi] at h; exact absurd h (by simp [Except.map])
  | ok v =>
    rw [hi] at h
    obtain ⟨id, s⟩ := v
    rw [unmarshalIdString_ok_append e hi]
    exact h

theorem stat_append {b : Bytes} {p : sshFxpStatPacket} (e : Bytes)
    (h : sshFxpStatPacket.UnmarshalBinary b = .ok p) :
    sshFxpStatPacket.UnmarshalBinary (b ++ e) = .ok p := by
  unfold sshFxpStatPacket.UnmarshalBinary at h ⊢
  cases hi : unmarshalIdString b with
  | error err => rw [hi] at h; exact absurd h (by simp [Except.map])
  | ok v =>
    rw [hi] at h
    obtain ⟨id, s⟩ := v
    rw [unmarshalIdString_ok_append e hi]
    exact h

theorem fstat_append {b : Bytes} {p : sshFxpFstatPacket} (e : Bytes)
    (h : sshFxpFstatPacket.UnmarshalBinary b = .ok p) :
    sshFxpFstatPacket.UnmarshalBinary (b ++ e) = .ok p := by
  unfold sshFxpFstatPacket.UnmarshalBinary at h ⊢
  cases hi : unmarshalIdString b with
  | error err => rw [hi] at h; exact absurd h (by simp [Except.map])
  | ok v =>
    rw [hi] at h
    obtain ⟨id, s⟩ := v
    rw [unmarshalIdString_ok_append e hi]
    exact h

theorem close_append {b : Bytes} {p : sshFxpClosePacket} (e : Bytes)
    (h : sshFxpClosePacket.UnmarshalBinary b = .ok p) :
    sshFxpClosePacket.UnmarshalBinary (b ++ e) = .ok p := by
  unfold sshFxpClosePacket.UnmarshalBinary at h ⊢
  cases hi : unmarshalIdString b with
  | error err => rw [hi] at h; exact absurd h (by simp [Except.map])
  | ok v =>
    rw [hi] at h
    obtain ⟨id, s⟩ := v
    rw [unmarshalIdString_ok_append e hi]
    exact h

theorem remove_append {b : Bytes} {p : sshFxpRemovePacket} (e : Bytes)
    (h : sshFxpRemovePacket.UnmarshalBinary b = .ok p) :
    sshFxpRemovePacket.UnmarshalBinary (b ++ e) = .ok p := by
  unfold sshFxpRemovePacket.UnmarshalBinary at h ⊢
  cases hi : unmarshalIdString b with
  | error err => rw [hi] at h; exact absurd h (by simp [Except.map])
  | ok v =>
    rw [hi] at h
    obtain ⟨id, s⟩ := v
    rw [unmarshalIdString_ok_append e hi]
    exact h

theorem rmdir_append {b : Bytes} {p : sshFxpRmdirPacket} (e : Bytes)
    (h : sshFxpRmdirPacket.UnmarshalBinary b = .ok p) :
    sshFxpRmdirPacket.UnmarshalBinary (b ++ e) = .ok p := by
  unfold sshFxpRmdirPacket.UnmarshalBinary at h ⊢
  cases hi : unmarshalIdString b with
  | error err => rw [hi] at h; exact absurd h (by simp [Except.map])
  | ok v =>
    rw [hi] at h
    obtain ⟨id, s⟩ := v
    rw [unmarshalIdString_ok_append e hi]
    exact h

theorem readlink_append {b : Bytes} {p : sshFxpReadlinkPacket} (e : Bytes)
    (h : sshFxpReadlinkPacket.UnmarshalBinary b = .ok p) :
    sshFxpReadlinkPacket.UnmarshalBinary (b ++ e) = .ok p := by
  unfold sshFxpReadlinkPacket.UnmarshalBinary at h ⊢
  cases hi : unmarshalIdString b with
  | error err => rw [hi] at h; exact absurd h (by simp [Except.map])
  | ok v =>
    rw [hi] at h
    obtain ⟨id, s⟩ := v
    rw [unmarshalIdString_ok_append e hi]
    exact h

theorem realpath_append {b : Bytes} {p : sshFxpRealpathPacket} (e : Bytes)
    (h : sshFxpRealpathPacket.UnmarshalBinary b = .ok p) :
    sshFxpRealpathPacket.UnmarshalBinary (b ++ e) = .ok p := by
  unfold sshFxpRealpathPacket.UnmarshalBinary at h ⊢
  cases hi : unmarshalIdString b with
  | error err => rw [hi] at h; exact absurd h (by simp [Except.map])
  | ok v =>
    rw [hi] at h
    obtain ⟨id, s⟩ := v
    rw [unmarshalIdString_ok_append e hi]
    exact h

theorem symlink_append {b : Bytes} {p : sshFxpSymlinkPacket} (e : Bytes)
    (h : sshFxpSymlinkPacket.UnmarshalBinary b = .ok p) :
    sshFxpSymlinkPacket.UnmarshalBinary (b ++ e) = .ok p := by
  unfold sshFxpSymlinkPacket.UnmarshalBinary at h ⊢
  split at h
  · exact absurd h (by simp)
  next id b1 heq1 =>
  split at h
  · exact absurd h (by simp)
  next tp b2 heq2 =>
  split at h
  · exact absurd h (by simp)
  next lp b3 heq3 =>
  rw [unmarshalUint32Safe_ok_append e heq1]
  dsimp only
  rw [unmarshalStringSafe_ok_append e heq2]
  dsimp only
  rw [unmarshalStringSafe_ok_append e heq3]
  dsimp only
  exact h

theorem open_append {b : Bytes} {p : sshFxpOpenPacket} (e : Bytes)
    (h : sshFxpOpenPacket.UnmarshalBinary b = .ok p) :
    sshFxpOpenPacket.UnmarshalBinary (b ++ e) = .ok p := by
  unfold sshFxpOpenPacket.UnmarshalBinary at h ⊢
  split at h
  · exact absurd h (by simp)
  next id b1 heq1 =>
  split at h
  · exact absurd h (by simp)
  next path b2 heq2 =>
  split at h
  · exact absurd h (by simp)
  next pflags b3 heq3 =>
  split at h
  · exact absurd h (by simp)
  next flags b4 heq4 =>
  rw [unmarshalUint32Safe_ok_append e heq1]
  dsimp only
  rw [unmarshalStringSafe_ok_append e heq2]
  dsimp only
  rw [unmarshalUint32Safe_ok_append e heq3]
  dsimp only
  rw [unmarshalUint32Safe_ok_append e heq4]
  dsimp only
  exact h

theorem read_append {b : Bytes} {p : sshFxpReadPacket} (e : Bytes)
    (h : sshFxpReadPacket.UnmarshalBinary b = .ok p) :
    sshFxpReadPacket.UnmarshalBinary (b ++ e) = .ok p := by
  unfold sshFxpReadPacket.UnmarshalBinary at h ⊢
  split at h
  · exact absurd h (by simp)
  next id b1 heq1 =>
  split at h
  · exact absurd h (by simp)
  next handle b2 heq2 =>
  split at h
  · exact absurd h (by simp)
  next offset b3 heq3 =>
  split at h
  · exact absurd h (by simp)
  next len b4 heq4 =>
  rw [unmarshalUint32Safe_ok_append e heq1]
  dsimp only
  rw [unmarshalStringSafe_ok_append e heq2]
  dsimp only
  rw [unmarshalUint64Safe_ok_append e heq3]
  dsimp only
  rw [unmarshalUint32Safe_ok_append e heq4]
  dsimp only
  exact h

theorem rename_append {b : Bytes} {p : sshFxpRenamePacket} (e : Bytes)
    (h : sshFxpRenamePacket.UnmarshalBinary b = .ok p) :
    sshFxpRenamePacket.UnmarshalBinary (b ++ e) = .ok p := by
  unfold sshFxpRenamePacket.UnmarshalBinary at h ⊢
  split at h
  · exact absurd h (by simp)
  next id b1 heq1 =>
  split at h
  · exact absurd h (by simp)
  next op b2 heq2 =>
  split at h
  · exact absurd h (by simp)
  next np b3 heq3 =>
  rw [unmarshalUint32Safe_ok_append e heq1]
  dsimp only
  rw [unmarshalStringSafe_ok_append e heq2]
  dsimp only
  rw [unmarshalStringSafe_ok_append e heq3]
  dsimp only
  exact h

theorem mkdir_append {b : Bytes} {p : sshFxpMkdirPacket} (e : Bytes)
    (h : sshFxpMkdirPacket.UnmarshalBinary b = .ok p) :
    sshFxpMkdirPacket.UnmarshalBinary (b ++ e) = .ok p := by
  unfold sshFxpMkdirPacket.UnmarshalBinary at h ⊢
  split at h
  · exact absurd h (by simp)
  next id b1 heq1 =>
  split at h
  · exact absurd h (by simp)
  next path b2 heq2 =>
  split at h
  · exact absurd h (by simp)
  next flags b3 heq3 =>
  rw [unmarshalUint32Safe_ok_append e heq1]
  dsimp only
  rw [unmarshalStringSafe_ok_append e heq2]
  dsimp only
  rw [unmarshalUint32Safe_ok_append e heq3]
  dsimp only
  exact h

theorem write_append {b : Bytes} {p : sshFxpWritePacket} (e : Bytes)
    (hbound : b.length + e.length < 2 ^ 32)
    (h : sshFxpWritePacket.UnmarshalBinary b = .ok p) :
    sshFxpWritePacket.UnmarshalBinary (b ++ e) = .ok p := by
  unfold sshFxpWritePacket.UnmarshalBinary at h ⊢
  split at h
  · exact absurd h (by simp)
  next id b1 heq1 =>
  split at h
  · exact absurd h (by simp)
  next handle b2 heq2 =>
  split at h
  · exact absurd h (by simp)
  next offset b3 heq3 =>
  split at h
  · exact absurd h (by simp)
  next length b4 heq4 =>
  split at h
  · exact absurd h (by simp)
  next hguard =>
  obtain ⟨hl1, -, hb1⟩ := unmarshalUint32Safe_ok heq1
  have hc2 := unmarshalStringSafe_consumes heq2
  obtain ⟨hl3, hb3⟩ := unmarshalUint64Safe_ok heq3
  obtain ⟨hl4, -, hb4⟩ := unmarshalUint32Safe_ok heq4
  have e1 : b1.length = b.length - 4 := by rw [hb1]; simp [List.length_drop]
  have e3 : b3.length = b2.length - 8 := by rw [hb3]; simp [List.length_drop]
  have e4 : b4.length = b3.length - 4 := by rw [hb4]; simp [List.length_drop]
  have hb4small : b4.length < 2 ^ 32 := by omega
  have hlen4 : length ≤ b4.length := by
    rw [Nat.mod_eq_of_lt hb4small] at hguard
    omega
  rw [unmarshalUint32Safe_ok_append e heq1]
  dsimp only
  rw [unmarshalStringSafe_ok_append e heq2]
  dsimp only
  rw [unmarshalUint64Safe_ok_append e heq3]
  dsimp only
  rw [unmarshalUint32Safe_ok_append e heq4]
  dsimp only
  rw [if_neg (by
    simp only [List.length_append]
    rw [Nat.mod_eq_of_lt (by omega)]
    omega)]
  rw [List.take_append_of_le_length hlen4]
  exact h

theorem data_append {b : Bytes} {p : sshFxpDataPacket} (e : Bytes)
    (hbound : b.length + e.length < 2 ^ 32)
    (h : sshFxpDataPacket.UnmarshalBinary b = .ok p) :
    sshFxpDataPacket.UnmarshalBinary (b ++ e) = .ok p := by
  unfold sshFxpDataPacket.UnmarshalBinary at h ⊢
  split at h
  · exact absurd h (by simp)
  next id b1 heq1 =>
  split at h
  · exact absurd h (by simp)
  next length b2 heq2 =>
  split at h
  · exact absurd h (by simp)
  next hguard =>
  obtain ⟨hl1, -, hb1⟩ := unmarshalUint32Safe_ok heq1
  obtain ⟨hl2, -, hb2⟩ := unmarshalUint32Safe_ok heq2
  have e1 : b1.length = b.length - 4 := by rw [hb1]; simp [List.length_drop]
  have e2 : b2.length = b1.length - 4 := by rw [hb2]; simp [List.length_drop]
  have hb2small : b2.length < 2 ^ 32 := by omega
  have hlen2 : length ≤ b2.length := by
    rw [Nat.mod_eq_of_lt hb2small] at hguard
    omega
  rw [unmarshalUint32Safe_ok_append e heq1]
  dsimp only
  rw [unmarshalUint32Safe_ok_append e heq2]
  dsimp only
  rw [if_neg (by
    simp only [List.length_append]
    rw [Nat.mod_eq_of_lt (by omega)]
    omega)]
  rw [List.take_append_of_le_length hlen2]
  exact h

/-! ## Claim theorems -/

/-- C1: the claim says the STAT/LSTAT and REALPATH/READLINK marshallers use
distinct wire tags.  The source instead reuses `ssh_FXP_LSTAT` for STAT and
`ssh_FXP_READLINK` for REALPATH, so the first bytes coincide; evaluated here
at the concrete input Id 1, path `/`, together with the registry facts that
the genuine STAT and REALPATH tags differ from the reused ones. -/
theorem C1_tag_reuse_eval :
    (sshFxpStatPacket.MarshalBinary ⟨1, [47]⟩).headD 0 =
      (sshFxpLstatPacket.MarshalBinary ⟨1, [47]⟩).headD 0 ∧
    (sshFxpRealpathPacket.MarshalBinary ⟨1, [47]⟩).headD 0 =
      (sshFxpReadlinkPacket.MarshalBinary ⟨1, [47]⟩).headD 0 ∧
    (sshFxpStatPacket.MarshalBinary ⟨1, [47]⟩).headD 0 = ssh_FXP_LSTAT ∧
    (sshFxpRealpathPacket.MarshalBinary ⟨1, [47]⟩).headD 0 = ssh_FXP_READLINK ∧
    ssh_FXP_LSTAT ≠ ssh_FXP_STAT ∧ ssh_FXP_READLINK ≠ ssh_FXP_REALPATH := by
  decide

/-- C2 (amended): when the declared length of a WRITE or DATA packet exceeds
the bytes remaining after the fixed fields, decoding fails without reading
past the buffer; WRITE fails with the `shortPacketError` value, while DATA
fails with the distinct `truncated packet` error value. -/
theorem C2_declared_length_guard :
    (∀ (b b1 b2 b3 b4 : Bytes) (id offset length : Nat) (handle : Bytes),
      unmarshalUint32Safe b = .ok (id, b1) →
      unmarshalStringSafe b1 = .ok (handle, b2) →
      unmarshalUint64Safe b2 = .ok (offset, b3) →
      unmarshalUint32Safe b3 = .ok (length, b4) →
      b4.length < length →
      sshFxpWritePacket.UnmarshalBinary b = .error .shortPacket) ∧
    (∀ (c c1 c2 : Bytes) (id length : Nat),
      unmarshalUint32Safe c = .ok (id, c1) →
      unmarshalUint32Safe c1 = .ok (length, c2) →
      c2.length < length →
      sshFxpDataPacket.UnmarshalBinary c = .error .truncatedPacket) := by
  constructor
  · intro b b1 b2 b3 b4 id offset length handle h1 h2 h3 h4 hlt
    unfold sshFxpWritePacket.UnmarshalBinary
    rw [h1]
    dsimp only
    rw [h2]
    dsimp only
    rw [h3]
    dsimp only
    rw [h4]
    dsimp only
    rw [if_pos (Nat.lt_of_le_of_lt (Nat.mod_le _ _) hlt)]
  · intro c c1 c2 id length h1 h2 hlt
    unfold sshFxpDataPacket.UnmarshalBinary
    rw [h1]
    dsimp only
    rw [h2]
    dsimp only
    rw [if_pos (Nat.lt_of_le_of_lt (Nat.mod_le _ _) hlt)]

/-- C2 witness: a WRITE body declaring five data bytes but carrying none,
and a DATA body declaring nine data bytes but carrying none. -/
theorem C2_witness :
    sshFxpWritePacket.UnmarshalBinary
        [0, 0, 0, 1, 0, 0, 0, 0, 0, 0, 0, 0, 0, 0, 0, 0, 0, 0, 0, 5] =
      .error .shortPacket ∧
    sshFxpDataPacket.UnmarshalBinary [0, 0, 0, 2, 0, 0, 0, 9] =
      .error .truncatedPacket :=
  ⟨C2_declared_length_guard.1
      [0, 0, 0, 1, 0, 0, 0, 0, 0, 0, 0, 0, 0, 0, 0, 0, 0, 0, 0, 5]
      [0, 0, 0, 0, 0, 0, 0, 0, 0, 0, 0, 0, 0, 0, 0, 5]
      [0, 0, 0, 0, 0, 0, 0, 0, 0, 0, 0, 5]
      [0, 0, 0, 5] [] 1 0 5 []
      (by decide) (by decide) (by decide) (by decide) (by decide),
   C2_declared_length_guard.2
      [0, 0, 0, 2, 0, 0, 0, 9] [0, 0, 0, 9] [] 2 9
      (by decide) (by decide) (by decide)⟩

/-- C2 counterexample: the claim as stated says the DATA decoder returns
`shortPacketError`; on this truncated DATA body it returns the distinct
`truncated packet` error instead. -/
theorem C2_counterexample :
    ¬ sshFxpDataPacket.UnmarshalBinary [0, 0, 0, 2, 0, 0, 0, 9] =
        .error .shortPacket := by
  decide

/-- C3: each checked decode primitive either fails with `shortPacketError`
when fewer bytes remain than its field requires (for strings, also when the
declared length exceeds the remainder), or consumes exactly its field,
reading only those bytes. -/
theorem C3_checked_primitives (b : Bytes) :
    (b.length < 4 → unmarshalUint32Safe b = .error .shortPacket) ∧
    (4 ≤ b.length →
      unmarshalUint32Safe b = .ok ((unmarshalUint32 (b.take 4)).1, b.drop 4)) ∧
    (b.length < 8 → unmarshalUint64Safe b = .error .shortPacket) ∧
    (8 ≤ b.length →
      unmarshalUint64Safe b =
        .ok ((unmarshalUint32 (b.take 4)).1 * 2 ^ 32 +
          (unmarshalUint32 ((b.drop 4).take 4)).1, b.drop 8)) ∧
    (b.length < 4 → unmarshalStringSafe b = .error .shortPacket) ∧
    (∀ n : Nat, 4 ≤ b.length → n = (unmarshalUint32 (b.take 4)).1 →
      b.length - 4 < n → unmarshalStringSafe b = .error .shortPacket) ∧
    (∀ n : Nat, 4 ≤ b.length → n = (unmarshalUint32 (b.take 4)).1 →
      n ≤ b.length - 4 →
      unmarshalStringSafe b = .ok ((b.drop 4).take n, (b.drop 4).drop n)) := by
  have hu32 : 4 ≤ b.length →
      unmarshalUint32Safe b = .ok ((unmarshalUint32 (b.take 4)).1, b.drop 4) := by
    intro h
    unfold unmarshalUint32Safe
    rw [if_neg (by omega), unmarshalUint32_take b]
  refine ⟨?_, hu32, ?_, ?_, ?_, ?_, ?_⟩
  · intro h
    unfold unmarshalUint32Safe
    rw [if_pos h]
  · intro h
    unfold unmarshalUint64Safe
    rw [if_pos h]
  · intro h
    unfold unmarshalUint64Safe
    rw [if_neg (by omega)]
    simp only [unmarshalUint64, unmarshalUint32_snd, List.drop_drop]
    rw [unmarshalUint32_fst_take b, unmarshalUint32_fst_take (b.drop 4)]
  · intro h
    unfold unmarshalStringSafe unmarshalUint32Safe
    rw [if_pos h]
  · intro n h hn hlt
    unfold unmarshalStringSafe
    rw [hu32 h]
    dsimp only
    rw [if_pos (by simp only [gt_iff_lt, List.length_drop]; omega)]
  · intro n h hn hle
    unfold unmarshalStringSafe
    rw [hu32 h]
    dsimp only
    rw [if_neg (by simp only [gt_iff_lt, List.length_drop]; omega), ← hn]

/-- C3 witness: a three-byte buffer is rejected; an exact string field is
consumed exactly. -/
theorem C3_witness :
    unmarshalUint32Safe [0, 1, 2] = .error .shortPacket ∧
    unmarshalStringSafe [0, 0, 0, 2, 9, 8, 7] = .ok ([9, 8], [7]) := by
  constructor
  · exact (C3_checked_primitives [0, 1, 2]).1 (by decide)
  · have h := (C3_checked_primitives [0, 0, 0, 2, 9, 8, 7]).2.2.2.2.2.2 2
      (by decide) (by decide) (by decide)
    simpa using h

/-- C5 (amended): `sendPacket` emits a 4-byte big-endian header followed by
the payload, and the header holds the payload length reduced modulo `2^32`;
whenever the payload is shorter than `2^32` bytes (every frame a `uint32`
length can describe), the header value is exactly the payload length and
the header does not count itself. -/
theorem C5_sendPacket_frame (payload : Bytes) :
    sendPacket payload = encUint32 (payload.length % 2 ^ 32) ++ payload ∧
    (payload.length < 2 ^ 32 →
      (unmarshalUint32 (sendPacket payload)).1 = payload.length ∧
      (sendPacket payload).drop 4 = payload) := by
  refine ⟨rfl, fun h => ⟨?_, ?_⟩⟩
  · show (unmarshalUint32 (marshalUint32 [] (payload.length % 2 ^ 32) ++ payload)).1 =
      payload.length
    rw [unmarshalUint32_marshal]
    rw [Nat.mod_eq_of_lt h, Nat.mod_eq_of_lt h]
  · show (marshalUint32 [] (payload.length % 2 ^ 32) ++ payload).drop 4 = payload
    exact List.drop_left' (by rw [marshalUint32_length]; rfl)

/-- C5 witness: a three-byte payload is framed with header value 3 and the
payload follows the header unchanged. -/
theorem C5_witness :
    (unmarshalUint32 (sendPacket [9, 8, 7])).1 = 3 ∧
    (sendPacket [9, 8, 7]).drop 4 = [9, 8, 7] :=
  (C5_sendPacket_frame [9, 8, 7]).2 (by decide)

/-- C5 counterexample: a WRITE packet carrying `2^32` data bytes marshals to
a payload of `2^32 + 21` bytes, and the frame header then holds 21, not the
exact payload length: `uint32(len(bb))` wraps. -/
theorem C5_counterexample :
    ¬ (unmarshalUint32 (sendPacket
          (sshFxpWritePacket.MarshalBinary ⟨0, [], 0, 0, List.replicate (2 ^ 32) 0⟩))).1 =
        (sshFxpWritePacket.MarshalBinary ⟨0, [], 0, 0, List.replicate (2 ^ 32) 0⟩).length := by
  have h1 : (encUint32 (0 : Nat) ++ (encString [] ++ (encUint64 0 ++
      (encUint32 0 ++ List.replicate (2 ^ 32) (0 : Nat))))).length = 20 + 2 ^ 32 := by
    simp only [List.length_append, encUint32_length, encUint64_length, encString_length,
      List.length_replicate, List.length_nil]
    omega
  have hM : sshFxpWritePacket.MarshalBinary ⟨0, [], 0, 0, List.replicate (2 ^ 32) 0⟩ =
      ssh_FXP_WRITE :: (encUint32 0 ++ (encString [] ++ (encUint64 0 ++
        (encUint32 0 ++ List.replicate (2 ^ 32) 0)))) := by
    rw [write_shape]
  have hlen : (sshFxpWritePacket.MarshalBinary ⟨0, [], 0, 0, List.replicate (2 ^ 32) 0⟩).length =
      21 + 2 ^ 32 := by
    rw [hM, List.length_cons, h1]
    omega
  have hmod : (21 + 2 ^ 32) % 2 ^ 32 = 21 := by norm_num
  intro heq
  have hval : unmarshalUint32 (sendPacket
      (sshFxpWritePacket.MarshalBinary ⟨0, [], 0, 0, List.replicate (2 ^ 32) 0⟩)) =
      (21 % 2 ^ 32,
        sshFxpWritePacket.MarshalBinary ⟨0, [], 0, 0, List.replicate (2 ^ 32) 0⟩) := by
    unfold sendPacket
    rw [hlen, hmod]
    exact unmarshalUint32_marshal 21 _
  rw [hval, hlen] at heq
  have heq2 : (21 : Nat) % 2 ^ 32 = 21 + 2 ^ 32 := heq
  have h21 : (21 : Nat) % 2 ^ 32 = 21 := by norm_num
  rw [h21] at heq2
  have h32 : (2 : Nat) ^ 32 = 4294967296 := by norm_num
  rw [h32] at heq2
  omega

/-- C6 (amended): for every kind whose unmarshaller reads a fixed field
sequence (all kinds with an UnmarshalBinary except INIT, SETSTAT and
FSETSTAT), a successful decode is unchanged by arbitrary trailing bytes,
for buffers and trailers jointly shorter than `2^32` bytes (any body a
`uint32`-length frame can carry).  INIT instead parses the trailing bytes
as extension pairs and can fail on them, and SETSTAT/FSETSTAT absorb them
into `Attrs`. -/
theorem C6_trailing_bytes (p q : Packet) (b extra : Bytes)
    (hkind : p.fixedFieldKind = true)
    (hbound : b.length + extra.length < 2 ^ 32)
    (h : p.unmarshalSameKind b = .ok q) :
    p.unmarshalSameKind (b ++ extra) = .ok q := by
  cases p with
  | initPk _ => simp [Packet.fixedFieldKind] at hkind
  | setstat _ => simp [Packet.fixedFieldKind] at hkind
  | fsetstat _ => simp [Packet.fixedFieldKind] at hkind
  | readdir _ =>
    simp only [Packet.unmarshalSameKind] at h ⊢
    cases hx : sshFxpReaddirPacket.UnmarshalBinary b with
    | error err => rw [hx] at h; exact absurd h (by simp [Except.map])
    | ok v => rw [hx] at h; rw [readdir_append extra hx]; exact h
  | opendir _ =>
    simp only [Packet.unmarshalSameKind] at h ⊢
    cases hx : sshFxpOpendirPacket.UnmarshalBinary b with
    | error err => rw [hx] at h; exact absurd h (by simp [Except.map])
    | ok v => rw [hx] at h; rw [opendir_append extra hx]; exact h
  | lstat _ =>
    simp only [Packet.unmarshalSameKind] at h ⊢
    cases hx : sshFxpLstatPacket.UnmarshalBinary b with
    | error err => rw [hx] at h; exact absurd h (by simp [Except.map])
    | ok v => rw [hx] at h; rw [lstat_append extra hx]; exact h
  | stat _ =>
    simp only [Packet.unmarshalSameKind] at h ⊢
    cases hx : sshFxpStatPacket.UnmarshalBinary b with
    | error err => rw [hx] at h; exact absurd h (by simp [Except.map])
    | ok v => rw [hx] at h; rw [stat_append extra hx]; exact h
  | fstat _ =>
    simp only [Packet.unmarshalSameKind] at h ⊢
    cases hx : sshFxpFstatPacket.UnmarshalBinary b with
    | error err => rw [hx] at h; exact absurd h (by simp [Except.map])
    | ok v => rw [hx] at h; rw [fstat_append extra hx]; exact h
  | close _ =>
    simp only [Packet.unmarshalSameKind] at h ⊢
    cases hx : sshFxpClosePacket.UnmarshalBinary b with
    | error err => rw [hx] at h; exact absurd h (by simp [Except.map])
    | ok v => rw [hx] at h; rw [close_append extra hx]; exact h
  | remove _ =>
    simp only [Packet.unmarshalSameKind] at h ⊢
    cases hx : sshFxpRemovePacket.UnmarshalBinary b with
    | error err => rw [hx] at h; exact absurd h (by simp [Except.map])
    | ok v => rw [hx] at h; rw [remove_append extra hx]; exact h
  | rmdir _ =>
    simp only [Packet.unmarshalSameKind] at h ⊢
    cases hx : sshFxpRmdirPacket.UnmarshalBinary b with
    | error err => rw [hx] at h; exact absurd h (by simp [Except.map])
    | ok v => rw [hx] at h; rw [rmdir_append extra hx]; exact h
  | symlink _ =>
    simp only [Packet.unmarshalSameKind] at h ⊢
    cases hx : sshFxpSymlinkPacket.UnmarshalBinary b with
    | error err => rw [hx] at h; exact absurd h (by simp [Except.map])
    | ok v => rw [hx] at h; rw [symlink_append extra hx]; exact h
  | readlink _ =>
    simp only [Packet.unmarshalSameKind] at h ⊢
    cases hx : sshFxpReadlinkPacket.UnmarshalBinary b with
    | error err => rw [hx] at h; exact absurd h (by simp [Except.map])
    | ok v => rw [hx] at h; rw [readlink_append extra hx]; exact h
  | realpath _ =>
    simp only [Packet.unmarshalSameKind] at h ⊢
    cases hx : sshFxpRealpathPacket.UnmarshalBinary b with
    | error err => rw [hx] at h; exact absurd h (by simp [Except.map])
    | ok v => rw [hx] at h; rw [realpath_append extra hx]; exact h
  | openPk _ =>
    simp only [Packet.unmarshalSameKind] at h ⊢
    cases hx : sshFxpOpenPacket.UnmarshalBinary b with
    | error err => rw [hx] at h; exact absurd h (by simp [Except.map])
    | ok v => rw [hx] at h; rw [open_append extra hx]; exact h
  | read _ =>
    simp only [Packet.unmarshalSameKind] at h ⊢
    cases hx : sshFxpReadPacket.UnmarshalBinary b with
    | error err => rw [hx] at h; exact absurd h (by simp [Except.map])
    | ok v => rw [hx] at h; rw [read_append extra hx]; exact h
  | rename _ =>
    simp only [Packet.unmarshalSameKind] at h ⊢
    cases hx : sshFxpRenamePacket.UnmarshalBinary b with
    | error err => rw [hx] at h; exact absurd h (by simp [Except.map])
    | ok v => rw [hx] at h; rw [rename_append extra hx]; exact h
  | write _ =>
    simp only [Packet.unmarshalSameKind] at h ⊢
    cases hx : sshFxpWritePacket.UnmarshalBinary b with
    | error err => rw [hx] at h; exact absurd h (by simp [Except.map])
    | ok v => rw [hx] at h; rw [write_append extra hbound hx]; exact h
  | mkdir _ =>
    simp only [Packet.unmarshalSameKind] at h ⊢
    cases hx : sshFxpMkdirPacket.UnmarshalBinary b with
    | error err => rw [hx] at h; exact absurd h (by simp [Except.map])
    | ok v => rw [hx] at h; rw [mkdir_append extra hx]; exact h
  | data _ =>
    simp only [Packet.unmarshalSameKind] at h ⊢
    cases hx : sshFxpDataPacket.UnmarshalBinary b with
    | error err => rw [hx] at h; exact absurd h (by simp [Except.map])
    | ok v => rw [hx] at h; rw [data_append extra hbound hx]; exact h

/-- C6 witness: a READDIR body decodes to the same packet with a trailing
byte appended. -/
theorem C6_witness :
    Packet.unmarshalSameKind (Packet.readdir ⟨1, []⟩)
        ([0, 0, 0, 1, 0, 0, 0, 0] ++ [9]) = .ok (Packet.readdir ⟨1, []⟩) :=
  C6_trailing_bytes (Packet.readdir ⟨1, []⟩) (Packet.readdir ⟨1, []⟩)
    [0, 0, 0, 1, 0, 0, 0, 0] [9] (by decide) (by decide) (by decide)

/-- C6 counterexample: the claim includes the INIT packet, but appending a
single trailing byte after a complete INIT body makes its decode fail with
`shortPacketError` (the loop parses trailing bytes as extension pairs)
even though the body without the trailing byte decodes successfully. -/
theorem C6_counterexample :
    sshFxInitPacket.UnmarshalBinary ([0, 0, 0, 3] ++ [0]) = .error .shortPacket ∧
    sshFxInitPacket.UnmarshalBinary [0, 0, 0, 3] = .ok ⟨3, []⟩ := by
  decide

/-- C4 (amended): for every packet kind with both a marshaller and an
unmarshaller, and every packet whose integer fields are in the range of
their Go types, whose string and data fields are shorter than `2^32` bytes,
and whose WRITE/DATA `Length` equals the length of `Data` (and whose
SETSTAT/FSETSTAT `Attrs` is a raw marshalled byte block), unmarshalling the
marshalled bytes with the leading tag removed reproduces the packet; and
the OPEN example from the spec marshals to exactly the listed bytes. -/
theorem C4_roundtrip :
    (∀ p : Packet, p.wf = true →
      p.unmarshalSameKind (p.marshalBinary.drop 1) = .ok p) ∧
    sshFxpOpenPacket.MarshalBinary ⟨7, [47, 116, 109, 112, 47, 120], 1, 0⟩ =
      ssh_FXP_OPEN :: [0, 0, 0, 7,
        0, 0, 0, 6, 47, 116, 109, 112, 47, 120,
        0, 0, 0, 1,
        0, 0, 0, 0] := by
  constructor
  · intro p h
    cases p with
    | initPk q =>
      simp only [Packet.wf, Bool.and_eq_true, decide_eq_true_eq, List.all_eq_true] at h
      have hext : ∀ e ∈ q.Extensions, e.Name.length < 2 ^ 32 ∧ e.Data.length < 2 ^ 32 := by
        intro e he
        have h2 := h.2 e he
        simpa using h2
      simp only [Packet.marshalBinary, Packet.unmarshalSameKind]
      rw [init_roundtrip q h.1 hext]
      rfl
    | readdir q =>
      simp only [Packet.wf, Bool.and_eq_true, decide_eq_true_eq] at h
      simp only [Packet.marshalBinary, Packet.unmarshalSameKind]
      rw [readdir_roundtrip q h.1 h.2]
      rfl
    | opendir q =>
      simp only [Packet.wf, Bool.and_eq_true, decide_eq_true_eq] at h
      simp only [Packet.marshalBinary, Packet.unmarshalSameKind]
      rw [opendir_roundtrip q h.1 h.2]
      rfl
    | lstat q =>
      simp only [Packet.wf, Bool.and_eq_true, decide_eq_true_eq] at h
      simp only [Packet.marshalBinary, Packet.unmarshalSameKind]
      rw [lstat_roundtrip q h.1 h.2]
      rfl
    | stat q =>
      simp only [Packet.wf, Bool.and_eq_true, decide_eq_true_eq] at h
      simp only [Packet.marshalBinary, Packet.unmarshalSameKind]
      rw [stat_roundtrip q h.1 h.2]
      rfl
    | fstat q =>
      simp only [Packet.wf, Bool.and_eq_true, decide_eq_true_eq] at h
      simp only [Packet.marshalBinary, Packet.unmarshalSameKind]
      rw [fstat_roundtrip q h.1 h.2]
      rfl
    | close q =>
      simp only [Packet.wf, Bool.and_eq_true, decide_eq_true_eq] at h
      simp only [Packet.marshalBinary, Packet.unmarshalSameKind]
      rw [close_roundtrip q h.1 h.2]
      rfl
    | remove q =>
      simp only [Packet.wf, Bool.and_eq_true, decide_eq_true_eq] at h
      simp only [Packet.marshalBinary, Packet.unmarshalSameKind]
      rw [remove_roundtrip q h.1 h.2]
      rfl
    | rmdir q =>
      simp only [Packet.wf, Bool.and_eq_true, decide_eq_true_eq] at h
      simp only [Packet.marshalBinary, Packet.unmarshalSameKind]
      rw [rmdir_roundtrip q h.1 h.2]
      rfl
    | symlink q =>
      simp only [Packet.wf, Bool.and_eq_true, decide_eq_true_eq] at h
      simp only [Packet.marshalBinary, Packet.unmarshalSameKind]
      rw [symlink_roundtrip q h.1.1 h.1.2 h.2]
      rfl
    | readlink q =>
      simp only [Packet.wf, Bool.and_eq_true, decide_eq_true_eq] at h
      simp only [Packet.marshalBinary, Packet.unmarshalSameKind]
      rw [readlink_roundtrip q h.1 h.2]
      rfl
    | realpath q =>
      simp only [Packet.wf, Bool.and_eq_true, decide_eq_true_eq] at h
      simp only [Packet.marshalBinary, Packet.unmarshalSameKind]
      rw [realpath_roundtrip q h.1 h.2]
      rfl
    | openPk q =>
      simp only [Packet.wf, Bool.and_eq_true, decide_eq_true_eq] at h
      simp only [Packet.marshalBinary, Packet.unmarshalSameKind]
      rw [open_roundtrip q h.1.1.1 h.1.1.2 h.1.2 h.2]
      rfl
    | read q =>
      simp only [Packet.wf, Bool.and_eq_true, decide_eq_true_eq] at h
      simp only [Packet.marshalBinary, Packet.unmarshalSameKind]
      rw [read_roundtrip q h.1.1.1 h.1.1.2 h.1.2 h.2]
      rfl
    | rename q =>
      simp only [Packet.wf, Bool.and_eq_true, decide_eq_true_eq] at h
      simp only [Packet.marshalBinary, Packet.unmarshalSameKind]
      rw [rename_roundtrip q h.1.1 h.1.2 h.2]
      rfl
    | write q =>
      simp only [Packet.wf, Bool.and_eq_true, decide_eq_true_eq] at h
      simp only [Packet.marshalBinary, Packet.unmarshalSameKind]
      rw [write_roundtrip q h.1.1.1.1 h.1.1.1.2 h.1.1.2 h.1.2 h.2]
      rfl
    | mkdir q =>
      simp only [Packet.wf, Bool.and_eq_true, decide_eq_true_eq] at h
      simp only [Packet.marshalBinary, Packet.unmarshalSameKind]
      rw [mkdir_roundtrip q h.1.1 h.1.2 h.2]
      rfl
    | setstat q =>
      simp only [Packet.wf, Bool.and_eq_true, decide_eq_true_eq] at h
      simp only [Packet.marshalBinary, Packet.unmarshalSameKind]
      rw [setstat_roundtrip q h.1.1 h.1.2 h.2]
      rfl
    | fsetstat q =>
      simp only [Packet.wf, Bool.and_eq_true, decide_eq_true_eq] at h
      simp only [Packet.marshalBinary, Packet.unmarshalSameKind]
      rw [fsetstat_roundtrip q h.1.1 h.1.2 h.2]
      rfl
    | data q =>
      simp only [Packet.wf, Bool.and_eq_true, decide_eq_true_eq] at h
      simp only [Packet.marshalBinary, Packet.unmarshalSameKind]
      rw [data_roundtrip q h.1.1 h.1.2 h.2]
      rfl
  · decide

/-- C4 witness: the OPEN example packet is well formed and round-trips. -/
theorem C4_witness :
    Packet.unmarshalSameKind (Packet.openPk ⟨7, [47, 116, 109, 112, 47, 120], 1, 0⟩)
        ((Packet.marshalBinary (Packet.openPk ⟨7, [47, 116, 109, 112, 47, 120], 1, 0⟩)).drop 1) =
      .ok (Packet.openPk ⟨7, [47, 116, 109, 112, 47, 120], 1, 0⟩) :=
  C4_roundtrip.1 (Packet.openPk ⟨7, [47, 116, 109, 112, 47, 120], 1, 0⟩) (by decide)

/-- C4 counterexample: a WRITE packet whose `Length` field is 0 but whose
`Data` holds one byte does not round-trip: the marshaller appends all of
`Data` while the unmarshaller reads back only `Length` bytes. -/
theorem C4_counterexample :
    ¬ Packet.unmarshalSameKind (Packet.write ⟨0, [], 0, 0, [1]⟩)
        ((Packet.marshalBinary (Packet.write ⟨0, [], 0, 0, [1]⟩)).drop 1) =
      .ok (Packet.write ⟨0, [], 0, 0, [1]⟩) := by
  decide

theorem foldl_len_shift (eps : List ExtensionPair) (n : Nat) :
    eps.foldl (fun l e => l + (4 + e.Name.length + 4 + e.Data.length)) n =
      n + eps.foldl (fun l e => l + (4 + e.Name.length + 4 + e.Data.length)) 0 := by
  induction eps generalizing n with
  | nil => simp
  | cons e t ih =>
    simp only [List.foldl_cons]
    rw [ih (n + _), ih (0 + _)]
    omega

theorem encExtensionPairs_length (eps : List ExtensionPair) :
    (encExtensionPairs eps).length =
      eps.foldl (fun l e => l + (4 + e.Name.length + 4 + e.Data.length)) 0 := by
  induction eps with
  | nil => rfl
  | cons e t ih =>
    simp only [encExtensionPairs, List.length_append, encString_length, ih,
      List.foldl_cons]
    rw [foldl_len_shift t (0 + _)]
    omega

/-- C7 (amended): for the kinds whose marshaller computes `l` from the tag,
the id and every field it then writes, `l` equals the exact output length
(WRITE, OPEN, READ, RENAME, SYMLINK, MKDIR, INIT, VERSION and every
`marshalIdString` kind); but the STATVFS `l` omits the two 4-byte string
length headers, and the SETSTAT/FSETSTAT `l` omits the marshalled `Attrs`
bytes; in those kinds `l` undercounts the output. -/
theorem C7_precomputed_len :
    (∀ s : sshFxpWritePacket, s.precomputedLen = s.MarshalBinary.length) ∧
    (∀ p : sshFxpOpenPacket, p.precomputedLen = p.MarshalBinary.length) ∧
    (∀ p : sshFxpReadPacket, p.precomputedLen = p.MarshalBinary.length) ∧
    (∀ p : sshFxpRenamePacket, p.precomputedLen = p.MarshalBinary.length) ∧
    (∀ p : sshFxpSymlinkPacket, p.precomputedLen = p.MarshalBinary.length) ∧
    (∀ p : sshFxpMkdirPacket, p.precomputedLen = p.MarshalBinary.length) ∧
    (∀ p : sshFxInitPacket, p.precomputedLen = p.MarshalBinary.length) ∧
    (∀ p : sshFxVersionPacket, p.precomputedLen = p.MarshalBinary.length) ∧
    (∀ (t id : Nat) (s : Bytes), marshalIdStringLen s = (marshalIdString t id s).length) ∧
    (∀ p : sshFxpStatvfsPacket, p.precomputedLen + 8 = p.MarshalBinary.length) ∧
    (∀ p : sshFxpSetstatPacket,
      p.precomputedLen + p.Attrs.length = p.MarshalBinary.length) ∧
    (∀ p : sshFxpFsetstatPacket,
      p.precomputedLen + p.Attrs.length = p.MarshalBinary.length) := by
  refine ⟨?_, ?_, ?_, ?_, ?_, ?_, ?_, ?_, ?_, ?_, ?_, ?_⟩
  · intro s
    rw [write_shape]
    simp only [sshFxpWritePacket.precomputedLen, List.length_cons, List.length_append,
      encUint32_length, encUint64_length, encString_length]
    omega
  · intro p
    rw [open_shape]
    simp only [sshFxpOpenPacket.precomputedLen, List.length_cons, List.length_append,
      encUint32_length, encString_length]
    omega
  · intro p
    rw [read_shape]
    simp only [sshFxpReadPacket.precomputedLen, List.length_cons, List.length_append,
      encUint32_length, encUint64_length, encString_length]
    omega
  · intro p
    rw [rename_shape]
    simp only [sshFxpRenamePacket.precomputedLen, List.length_cons, List.length_append,
      encUint32_length, encString_length]
    omega
  · intro p
    rw [symlink_shape]
    simp only [sshFxpSymlinkPacket.precomputedLen, List.length_cons, List.length_append,
      encUint32_length, encString_length]
    omega
  · intro p
    rw [mkdir_shape]
    simp only [sshFxpMkdirPacket.precomputedLen, List.length_cons, List.length_append,
      encUint32_length, encString_length]
    omega
  · intro p
    rw [init_shape]
    simp only [sshFxInitPacket.precomputedLen, List.length_cons, List.length_append,
      encUint32_length, encExtensionPairs_length]
    rw [foldl_len_shift]
    omega
  · intro p
    have hshape : p.MarshalBinary =
        ssh_FXP_VERSION :: (encUint32 p.Version ++ encExtensionPairs p.Extensions) := by
      simp [sshFxVersionPacket.MarshalBinary, foldl_marshal_pairs, marshalUint32_eq]
    rw [hshape]
    simp only [sshFxVersionPacket.precomputedLen, List.length_cons, List.length_append,
      encUint32_length, encExtensionPairs_length]
    rw [foldl_len_shift]
    omega
  · intro t id s
    rw [marshalIdString_length]
    simp only [marshalIdStringLen]
    omega
  · intro p
    rw [statvfs_shape]
    simp only [sshFxpStatvfsPacket.precomputedLen, List.length_cons, List.length_append,
      encUint32_length, encString_length, statvfsExtName]
    omega
  · intro p
    rw [setstat_shape]
    simp only [sshFxpSetstatPacket.precomputedLen, List.length_cons, List.length_append,
      encUint32_length, encString_length]
    omega
  · intro p
    rw [fsetstat_shape]
    simp only [sshFxpFsetstatPacket.precomputedLen, List.length_cons, List.length_append,
      encUint32_length, encString_length]
    omega

/-- C7 counterexample: for the STATVFS request with Id 0 and empty path the
pre-computed `l` is 24 but the marshalled output has 32 bytes, so the claim
that `l` equals the exact output length fails. -/
theorem C7_counterexample :
    ¬ sshFxpStatvfsPacket.precomputedLen ⟨0, []⟩ =
        (sshFxpStatvfsPacket.MarshalBinary ⟨0, []⟩).length := by
  decide

/-- C8: the two derived StatVFS accessors are the products of `Frsize` with
`Blocks` resp. `Bfree` in `uint64` arithmetic, and they depend on those two
fields only. -/
theorem C8_statvfs_accessors (s t : StatVFS) :
    s.TotalSpace = s.Frsize * s.Blocks % 2 ^ 64 ∧
    s.FreeSpace = s.Frsize * s.Bfree % 2 ^ 64 ∧
    (s.Frsize = t.Frsize → s.Blocks = t.Blocks → s.TotalSpace = t.TotalSpace) ∧
    (s.Frsize = t.Frsize → s.Bfree = t.Bfree → s.FreeSpace = t.FreeSpace) := by
  refine ⟨rfl, rfl, ?_, ?_⟩
  · intro h1 h2
    unfold StatVFS.TotalSpace
    rw [h1, h2]
  · intro h1 h2
    unfold StatVFS.FreeSpace
    rw [h1, h2]

/-- C8 witness: two StatVFS values agreeing only on `Frsize` and `Blocks`
have the same total space, and the product is computed. -/
theorem C8_witness :
    StatVFS.TotalSpace ⟨0, 0, 3, 5, 7, 0, 0, 0, 0, 0, 0, 0⟩ =
      StatVFS.TotalSpace ⟨1, 9, 3, 5, 8, 2, 2, 2, 2, 2, 2, 2⟩ :=
  (C8_statvfs_accessors ⟨0, 0, 3, 5, 7, 0, 0, 0, 0, 0, 0, 0⟩
    ⟨1, 9, 3, 5, 8, 2, 2, 2, 2, 2, 2, 2⟩).2.2.1 (by decide) (by decide)

/-- C9: `recvPacket` evaluates `b[0]` on the empty payload of a frame whose
length prefix is zero (an out-of-range access instead of an error), and for
any frame with length prefix at least one and enough bytes available it
returns the first payload byte as the tag and the remaining bytes as the
body. -/
theorem C9_recvPacket (stream : Bytes) :
    (4 ≤ stream.length → (unmarshalUint32 (stream.take 4)).1 = 0 →
      recvPacket stream = .outOfRange) ∧
    (∀ l : Nat, 4 ≤ stream.length → (unmarshalUint32 (stream.take 4)).1 = l →
      1 ≤ l → l ≤ stream.length - 4 →
      recvPacket stream =
        .ok ((stream.drop 4).headD 0) (((stream.drop 4).take l).drop 1)) := by
  constructor
  · intro h4 h0
    unfold recvPacket
    rw [if_neg (by omega)]
    dsimp only
    rw [h0, if_neg (Nat.not_lt_zero _), List.take_zero]
  · intro l h4 hl h1 hle
    unfold recvPacket
    rw [if_neg (by omega)]
    dsimp only
    rw [hl, if_neg (by simp only [List.length_drop]; omega)]
    obtain ⟨lp, rfl⟩ : ∃ lp, l = lp + 1 := ⟨l - 1, by omega⟩
    cases hr : stream.drop 4 with
    | nil =>
      exfalso
      have hz : (stream.drop 4).length = 0 := by rw [hr]; rfl
      simp only [List.length_drop] at hz
      omega
    | cons r0 rt =>
      simp [List.take_succ_cons]

/-- C9 witness: a zero-length frame drives `recvPacket` into the
out-of-range branch; a two-byte frame returns tag 9 and body `[7]`. -/
theorem C9_witness :
    recvPacket [0, 0, 0, 0] = .outOfRange ∧
    recvPacket [0, 0, 0, 2, 9, 7] = .ok 9 [7] := by
  constructor
  · exact (C9_recvPacket [0, 0, 0, 0]).1 (by decide) (by decide)
  · have h := (C9_recvPacket [0, 0, 0, 2, 9, 7]).2 2 (by decide) (by decide)
      (by decide) (by decide)
    simpa using h

end Sftp
